import Mathlib

/-!
Verification of the Firefox add-ons fetch script (fetch-addons.py).

The script's pure core is shallowly embedded here:
 * `is_hex_string`, `convert_to_sri` — the hash normalizer (with `bytes.fromhex`
   and `base64.b64encode` modelled as `fromhex` / `b64encode`);
 * `process_result` — the record mapper over a JSON value model, with Python
   exceptions modelled as the error side of `Except PyErr`;
 * the pagination bound computed in `main` (`requested_pages`, `pages_fetched`);
 * the final sort of collected records by the `pname` key (`sortResults`,
   `run_output`), modelling Python's stable `sorted(key=lambda x: x["pname"])`.
-/

/-- JSON values, as produced by `response.json()` in the script. -/
inductive Json where
  | null : Json
  | bool : Bool → Json
  | num : Int → Json
  | str : String → Json
  | arr : List Json → Json
  | obj : List (String × Json) → Json

/-- Python exceptions that the embedded code can raise. -/
inductive PyErr where
  | keyError : String → PyErr
  | typeError : PyErr
  | attributeError : PyErr
  | valueError : PyErr
  | exception : String → PyErr
deriving DecidableEq

/-- Python truthiness of a JSON value (`if x:`): None, False, 0, empty string,
empty list and empty dict are falsy. -/
def Json.truthy : Json → Bool
  | .null => false
  | .bool b => b
  | .num n => n != 0
  | .str s => s != ""
  | .arr l => !l.isEmpty
  | .obj l => !l.isEmpty

/-- Python `isinstance(x, dict)`. -/
def Json.isDict : Json → Bool
  | .obj _ => true
  | _ => false

/-- Python `x is None` for JSON values (JSON null deserializes to None). -/
def Json.isNone : Json → Bool
  | .null => true
  | _ => false

/-- Python `x[k]` with a string key: dict lookup raising KeyError when the key
is missing, TypeError when `x` is not a dict. -/
def Json.index (j : Json) (k : String) : Except PyErr Json :=
  match j with
  | .obj kvs =>
    match kvs.lookup k with
    | some v => Except.ok v
    | none => Except.error (PyErr.keyError k)
  | _ => Except.error PyErr.typeError

/-- Python `x.get(k)` on a dict (absent key gives None, i.e. JSON null);
AttributeError when `x` is not a dict. -/
def Json.pyGet (j : Json) (k : String) : Except PyErr Json :=
  match j with
  | .obj kvs => Except.ok ((kvs.lookup k).getD Json.null)
  | _ => Except.error PyErr.attributeError

/-- Python `x.get(k, d)` on a dict with an explicit default. -/
def Json.pyGetD (j : Json) (k : String) (d : Json) : Except PyErr Json :=
  match j with
  | .obj kvs => Except.ok ((kvs.lookup k).getD d)
  | _ => Except.error PyErr.attributeError

/-- Python `x.get(k)` at places where `x` is already known to be a dict
(used in the status-check error messages, where `result` was just indexed). -/
def Json.getOrNone (j : Json) (k : String) : Json :=
  match j with
  | .obj kvs => (kvs.lookup k).getD Json.null
  | _ => Json.null

/-- Substring occurrence on character lists, for Python `sub in str`. -/
def hasSubstring : List Char → List Char → Bool
  | [], needle => needle.isEmpty
  | h :: t, needle => needle.isPrefixOf (h :: t) || hasSubstring t needle

/-- Python `k in x`: key membership for dicts, substring test for strings,
element membership for lists, TypeError otherwise. -/
def Json.hasKey (j : Json) (k : String) : Except PyErr Bool :=
  match j with
  | .obj kvs => Except.ok (kvs.lookup k).isSome
  | .str s => Except.ok (hasSubstring s.data k.data)
  | .arr l => Except.ok (l.any fun e => match e with | .str s => s == k | _ => false)
  | _ => Except.error PyErr.typeError

/-- Dict lookup as an Option, for stating absence of a field. -/
def Json.lookupJ (j : Json) (k : String) : Option Json :=
  match j with
  | .obj kvs => kvs.lookup k
  | _ => none

/-- Python `k in x` restricted to dicts, as a Bool, for stating hypotheses. -/
def Json.member (j : Json) (k : String) : Bool :=
  (Json.lookupJ j k).isSome

/-- Python `x == "lit"` for a JSON value: only a string with the same
characters compares equal to a string literal. -/
def pyEqStr (j : Json) (s : String) : Bool :=
  match j with
  | .str t => t == s
  | _ => false

/-- Python `str(x)` as used in the status-check f-strings. The guid is a
string in every reachable use; container rendering is abbreviated. -/
def pyStr : Json → String
  | .null => "None"
  | .bool true => "True"
  | .bool false => "False"
  | .num n => toString n
  | .str s => s
  | .arr _ => "<list>"
  | .obj _ => "<dict>"

/-- Python `s.startswith(p)`. -/
def pyStartswith (s p : String) : Bool :=
  p.data.isPrefixOf s.data

/-- Python `s[n:]`. -/
def pyDrop (s : String) (n : Nat) : String :=
  String.mk (s.data.drop n)

/-- Line 65: `is_hex_string(s)` — True iff every character of `s` is a hex
digit (vacuously true for the empty string). -/
def is_hex_string (s : String) : Bool :=
  s.data.all fun c => "0123456789abcdefABCDEF".data.contains c

/-- Value of a single hex digit, both cases. -/
def hexVal (c : Char) : Option Nat :=
  if '0' ≤ c ∧ c ≤ '9' then some (c.toNat - '0'.toNat)
  else if 'a' ≤ c ∧ c ≤ 'f' then some (c.toNat - 'a'.toNat + 10)
  else if 'A' ≤ c ∧ c ≤ 'F' then some (c.toNat - 'A'.toNat + 10)
  else none

/-- Python `bytes.fromhex`: pairs of hex digits, single spaces allowed
between bytes; ValueError on a stray character or an odd digit count. -/
def fromhex : List Char → Except PyErr (List Nat)
  | [] => Except.ok []
  | c :: rest =>
    if c = ' ' then fromhex rest
    else
      match hexVal c, rest with
      | some h1, c2 :: rest2 =>
        (match hexVal c2 with
         | some h2 =>
           (match fromhex rest2 with
            | Except.ok bs => Except.ok ((16 * h1 + h2) :: bs)
            | Except.error e => Except.error e)
         | none => Except.error PyErr.valueError)
      | _, _ => Except.error PyErr.valueError

/-- The base64 alphabet, in order. -/
def b64Table : List Char :=
  "ABCDEFGHIJKLMNOPQRSTUVWXYZabcdefghijklmnopqrstuvwxyz0123456789+/".data

/-- Character for a 6-bit group. -/
def b64Char (n : Nat) : Char :=
  b64Table.getD n 'A'

/-- Python `base64.b64encode` on a byte sequence (standard alphabet,
`=`-padded). -/
def b64encode : List Nat → List Char
  | [] => []
  | [b1] => [b64Char (b1 / 4), b64Char (b1 % 4 * 16), '=', '=']
  | [b1, b2] => [b64Char (b1 / 4), b64Char (b1 % 4 * 16 + b2 / 16), b64Char (b2 % 16 * 4), '=']
  | b1 :: b2 :: b3 :: rest =>
    b64Char (b1 / 4) :: b64Char (b1 % 4 * 16 + b2 / 16) ::
      b64Char (b2 % 16 * 4 + b3 / 64) :: b64Char (b3 % 64) :: b64encode rest

/-- Lines 98-105 of `convert_to_sri`: validate the extracted hex part and
convert; `bytes.fromhex` raises ValueError on an odd number of hex digits. -/
def convertHexPart (algo : String) (hex_part : String) (hash_str : String) :
    Except PyErr String :=
  if is_hex_string hex_part = false then Except.ok hash_str
  else
    match fromhex hex_part.data with
    | Except.error e => Except.error e
    | Except.ok hash_bytes =>
      Except.ok (algo ++ "-" ++ String.mk (b64encode hash_bytes))

/-- Lines 70-105: `convert_to_sri(hash_str, verbose, addon_guid)`. The
`verbose` and `addon_guid` arguments only drive logging. The error side of
the result models a raised exception. -/
def convert_to_sri (hash_str : String) (verbose : Bool) (addon_guid : Json) :
    Except PyErr String :=
  if pyStartswith hash_str "sha256-" || pyStartswith hash_str "sha512-" then
    Except.ok hash_str
  else if pyStartswith hash_str "sha256:" then
    convertHexPart "sha256" (pyDrop hash_str 7) hash_str
  else if pyStartswith hash_str "sha512:" then
    convertHexPart "sha512" (pyDrop hash_str 7) hash_str
  else if is_hex_string hash_str then
    convertHexPart "sha256" hash_str hash_str
  else
    Except.ok hash_str

/-- Lines 141-144 of `process_result`: the public-status checks, which raise
a descriptive Exception naming the addon's guid. -/
def statusCheck (result : Json) : Except PyErr Unit := do
  let st ← result.index "status"
  if pyEqStr st "public" then
    pure ()
  else
    throw (PyErr.exception ("Addon " ++ pyStr (Json.getOrNone result "guid") ++
      " does not have required status \x27public\x27."))
  let cv ← result.index "current_version"
  let fileObj ← cv.index "file"
  let fstat ← fileObj.index "status"
  if pyEqStr fstat "public" then
    pure ()
  else
    throw (PyErr.exception ("Addon " ++ pyStr (Json.getOrNone result "guid") ++
      " current_version file does not have status \x27public\x27."))

/-- The guard `hash_str.startswith(...)` inside `convert_to_sri` raises
AttributeError when the extracted hash is not a string. -/
def Json.expectStr : Json → Except PyErr String
  | .str s => Except.ok s
  | _ => Except.error PyErr.attributeError

/-- Lines 148-152: `pname` from `slug`, indexing `slug["en-US"]` (KeyError
when absent) when the slug is a per-locale dict. -/
def extractPname (slug : Json) : Except PyErr Json :=
  if slug.isDict then slug.index "en-US" else pure slug

/-- Lines 147-159, body of the `try` block: required-field extraction, in
source order (slug / pname, version, url, hash, conversion, guid). -/
def extractRequired (result : Json) (verbose : Bool) :
    Except PyErr (List (String × Json)) := do
  let slug ← result.index "slug"
  let pname ← extractPname slug
  let cv1 ← result.index "current_version"
  let version ← cv1.index "version"
  let cv2 ← result.index "current_version"
  let file2 ← cv2.index "file"
  let url ← file2.index "url"
  let cv3 ← result.index "current_version"
  let file3 ← cv3.index "file"
  let hashJ ← file3.index "hash"
  let hash_str ← hashJ.expectStr
  let guidArg ← result.index "guid"
  let converted_hash ← convert_to_sri hash_str verbose guidArg
  let addonId ← result.index "guid"
  pure [("pname", pname), ("version", version), ("url", url),
    ("hash", Json.str converted_hash), ("addonId", addonId)]

/-- Lines 158-159: `except KeyError as e: raise Exception(f"Missing required
field: ...")` — only KeyError is re-wrapped; other exceptions pass through.
Python renders the caught KeyError as the quoted key. -/
def wrapKeyError : PyErr → Except PyErr (List (String × Json))
  | PyErr.keyError k =>
    Except.error (PyErr.exception ("Missing required field: \x27" ++ k ++ "\x27"))
  | e => Except.error e

/-- The `try`/`except KeyError` around the required-field extraction. -/
def requiredOrWrapped (result : Json) (verbose : Bool) :
    Except PyErr (List (String × Json)) :=
  match extractRequired result verbose with
  | Except.ok b => Except.ok b
  | Except.error e => wrapKeyError e

/-- Lines 172-182: the homepage block — `result.get("homepage")`, truthiness
guard, `.get("url")`, per-locale resolution via `.get("en-US")`, and the
`is not None` guard. -/
def metaHomepage (result : Json) : Except PyErr (List (String × Json)) := do
  let homepage_obj ← result.pyGet "homepage"
  if homepage_obj.truthy then
    let url_obj ← homepage_obj.pyGet "url"
    if url_obj.truthy then
      let home := if url_obj.isDict then Json.getOrNone url_obj "en-US" else url_obj
      if home.isNone then pure [] else pure [("homepage", home)]
    else pure []
  else pure []

/-- Lines 184-192: the summary block, resolved via `en-US` when per-locale. -/
def metaDescription (result : Json) : Except PyErr (List (String × Json)) := do
  let summary_obj ← result.pyGet "summary"
  if summary_obj.truthy then
    let desc := if summary_obj.isDict then Json.getOrNone summary_obj "en-US" else summary_obj
    if desc.isNone then pure [] else pure [("description", desc)]
  else pure []

/-- Lines 194-197: `result.get("current_version", ...).get("license")` and
the `license_obj and "slug" in license_obj` guard. -/
def metaLicense (result : Json) : Except PyErr (List (String × Json)) := do
  let cv ← result.pyGetD "current_version" (Json.obj [])
  let license_obj ← cv.pyGet "license"
  if license_obj.truthy then
    let b ← license_obj.hasKey "slug"
    if b then do
      let v ← license_obj.index "slug"
      pure [("license", v)]
    else pure []
  else pure []

/-- One `if srcKey in o: meta[outKey] = o[srcKey]` step. -/
def keyedEntry (o : Json) (srcKey outKey : String) :
    Except PyErr (List (String × Json)) := do
  let b ← o.hasKey srcKey
  if b then do
    let v ← o.index srcKey
    pure [(outKey, v)]
  else pure []

/-- Lines 199-206: the three permission fields taken from
`result.get("current_version", ...).get("file", ...)`. -/
def metaFilePerms (result : Json) : Except PyErr (List (String × Json)) := do
  let cv ← result.pyGetD "current_version" (Json.obj [])
  let file_obj ← cv.pyGetD "file" (Json.obj [])
  let l1 ← keyedEntry file_obj "permissions" "permissions"
  let l2 ← keyedEntry file_obj "host_permissions" "hostPermissions"
  let l3 ← keyedEntry file_obj "optional_permissions" "optionalPermissions"
  pure (l1 ++ l2 ++ l3)

/-- Lines 212-215: `compatibility_obj and "firefox" in compatibility_obj`. -/
def metaCompatibility (result : Json) : Except PyErr (List (String × Json)) := do
  let compatibility_obj ← result.pyGet "compatibility"
  if compatibility_obj.truthy then
    let b ← compatibility_obj.hasKey "firefox"
    if b then do
      let v ← compatibility_obj.index "firefox"
      pure [("compatibility", v)]
    else pure []
  else pure []

/-- Lines 229-232: `promoted_obj and "category" in promoted_obj`. -/
def metaPromoted (result : Json) : Except PyErr (List (String × Json)) := do
  let promoted_obj ← result.pyGet "promoted"
  if promoted_obj.truthy then
    let b ← promoted_obj.hasKey "category"
    if b then do
      let v ← promoted_obj.index "category"
      pure [("promotedCategory", v)]
    else pure []
  else pure []

/-- Lines 169-232: the `meta` dict, built by in-order insertion of the
optional fields (all keys distinct, so an association list models the dict). -/
def buildMeta (result : Json) : Except PyErr (List (String × Json)) := do
  let m1 ← metaHomepage result
  let m2 ← metaDescription result
  let m3 ← metaLicense result
  let m4 ← metaFilePerms result
  let m5 ← keyedEntry result "requires_payment" "requiresPayment"
  let m6 ← metaCompatibility result
  let m7 ← keyedEntry result "categories" "categories"
  let m8 ← keyedEntry result "tags" "tags"
  let m9 ← keyedEntry result "has_eula" "hasEula"
  let m10 ← keyedEntry result "has_privacy_policy" "hasPrivacyPolicy"
  let m11 ← metaPromoted result
  pure (m1 ++ m2 ++ m3 ++ m4 ++ m5 ++ m6 ++ m7 ++ m8 ++ m9 ++ m10 ++ m11)

/-- Lines 134-237: `process_result(result, verbose)` — status checks, wrapped
required-field extraction, optional meta fields, and the final `if meta:`
guard before attaching the `meta` key. -/
def process_result (result : Json) (verbose : Bool) : Except PyErr Json := do
  statusCheck result
  let base ← requiredOrWrapped result verbose
  let meta ← buildMeta result
  pure (Json.obj (if meta.isEmpty then base else base ++ [("meta", Json.obj meta)]))

/-- Lines 266-269: the number of pages to fetch — `min(args.pages,
total_pages)` when `--pages` was supplied, else `total_pages`. -/
def requested_pages (pagesArg : Option Int) (total_pages : Int) : Int :=
  match pagesArg with
  | some n => min n total_pages
  | none => total_pages

/-- Python `range(a, b)` over integers. -/
def pyRange (a b : Int) : List Int :=
  List.map (fun i => a + Int.ofNat i) (List.range (b - a).toNat)

/-- Lines 281-286: the pages submitted to the worker pool — `range(2,
requested_pages + 1)` when `requested_pages > 1`, nothing otherwise. -/
def pool_pages (pagesArg : Option Int) (total_pages : Int) : List Int :=
  if requested_pages pagesArg total_pages > 1 then
    pyRange 2 (requested_pages pagesArg total_pages + 1)
  else []

/-- Lines 259-291: all pages fetched in one run — page 1 synchronously
(before the bound is even computed), then the pool pages. -/
def pages_fetched (pagesArg : Option Int) (total_pages : Int) : List Int :=
  1 :: pool_pages pagesArg total_pages

/-- Lexicographic order on character lists by code point, as Python compares
strings; Boolean `≤`. -/
def lexLe : List Char → List Char → Bool
  | [], _ => true
  | _ :: _, [] => false
  | a :: as, b :: bs => if a < b then true else if b < a then false else lexLe as bs

/-- The sort key of line 294, `lambda x: x["pname"]`, for records whose
`pname` is a string (the only case in which Python's `sorted` succeeds). -/
def pnameKey (j : Json) : String :=
  match j with
  | .obj kvs =>
    match kvs.lookup "pname" with
    | some (.str s) => s
    | _ => ""
  | _ => ""

/-- Comparison used to sort mapped records: `≤` on their `pname` keys. -/
def pnameLe (a b : Json) : Bool :=
  lexLe (pnameKey a).data (pnameKey b).data

/-- Stable insertion of one record into an already sorted list: the new
record goes before the first strictly-or-equally larger element only when it
compares `≤`, hence after all records with an equal key. -/
def insertSorted (r : Json) : List Json → List Json
  | [] => [r]
  | x :: xs => if pnameLe r x then r :: x :: xs else x :: insertSorted r xs

/-- Line 294: `sorted(results_list, key=lambda x: x["pname"])`. Python's
sort is stable; insertion sort with `insertSorted` computes the same list
(sorted by key, equal keys in encounter order). -/
def sortResults : List Json → List Json
  | [] => []
  | x :: xs => insertSorted x (sortResults xs)

/-- Lines 274-295: the output serialization order. `page1_results` are the
mapped records of page 1 (always processed first); `pool_results` holds the
mapped records of pages 2..N, one list per page, in completion order. -/
def run_output (page1_results : List Json) (pool_results : List (List Json)) :
    List Json :=
  sortResults (page1_results ++ pool_results.flatten)

/-- Top-level keys of a mapped record. -/
def topKeys (j : Json) : List String :=
  match j with
  | .obj kvs => kvs.map Prod.fst
  | _ => []

/-- Keys of the `meta` mapping of a mapped record ([] when `meta` absent). -/
def mappedMetaKeys (j : Json) : List String :=
  match j with
  | .obj kvs =>
    match kvs.lookup "meta" with
    | some (.obj m) => m.map Prod.fst
    | _ => []
  | _ => []

/-- Base64-alphabet string (possibly `=`-padded), the tail shape of an
already-normalized SRI hash. -/
def isBase64Str (t : String) : Bool :=
  t.data.all fun c => b64Table.contains c || c == '='

/-- A fully public raw record with only the required fields. -/
def sampleOk : Json := Json.obj [
  ("status", Json.str "public"),
  ("current_version", Json.obj [
    ("version", Json.str "1.0"),
    ("file", Json.obj [
      ("status", Json.str "public"),
      ("url", Json.str "https://x/a.xpi"),
      ("hash", Json.str "sha256:deadbeef")])]),
  ("slug", Json.str "ublock-origin"),
  ("guid", Json.str "g1")]

/-- The mapped record the script produces for `sampleOk`. -/
def sampleOkMapped : Json := Json.obj [
  ("pname", Json.str "ublock-origin"),
  ("version", Json.str "1.0"),
  ("url", Json.str "https://x/a.xpi"),
  ("hash", Json.str "sha256-3q2+7w=="),
  ("addonId", Json.str "g1")]

/-- A public record whose per-locale `slug` lacks an `en-US` entry. -/
def sampleSlugLocale : Json := Json.obj [
  ("status", Json.str "public"),
  ("current_version", Json.obj [
    ("version", Json.str "1.0"),
    ("file", Json.obj [
      ("status", Json.str "public"),
      ("url", Json.str "u"),
      ("hash", Json.str "sha256-x")])]),
  ("slug", Json.obj [("fr", Json.str "nom")]),
  ("guid", Json.str "g2")]

/-- A record whose top-level status is not public. -/
def sampleBadStatus : Json := Json.obj [
  ("status", Json.str "disabled"),
  ("guid", Json.str "g3")]

/-- A record whose file status is not public. -/
def sampleBadFileStatus : Json := Json.obj [
  ("status", Json.str "public"),
  ("current_version", Json.obj [
    ("file", Json.obj [("status", Json.str "incomplete")])]),
  ("guid", Json.str "g4")]

/-- A public record whose optional per-locale fields (`homepage.url`,
`summary`) lack an `en-US` entry. -/
def sampleLocaleOpt : Json := Json.obj [
  ("status", Json.str "public"),
  ("current_version", Json.obj [
    ("version", Json.str "2.0"),
    ("file", Json.obj [
      ("status", Json.str "public"),
      ("url", Json.str "u"),
      ("hash", Json.str "sha256-y")])]),
  ("slug", Json.str "some-addon"),
  ("guid", Json.str "g5"),
  ("homepage", Json.obj [("url", Json.obj [("fr", Json.str "https://fr")])]),
  ("summary", Json.obj [("fr", Json.str "résumé")])]

/-- Two mapped records sharing the pname "a" (as arises when the same
package name occurs on two different pages). -/
def sampleDupA : Json := Json.obj [("pname", Json.str "a"), ("version", Json.str "1"),
  ("url", Json.str "u1"), ("hash", Json.str "h"), ("addonId", Json.str "id1")]

def sampleDupB : Json := Json.obj [("pname", Json.str "a"), ("version", Json.str "2"),
  ("url", Json.str "u2"), ("hash", Json.str "h"), ("addonId", Json.str "id2")]

/-- Mapped records with pairwise distinct pnames. -/
def sampleRecA : Json := Json.obj [("pname", Json.str "alpha"), ("version", Json.str "1"),
  ("url", Json.str "u1"), ("hash", Json.str "h1"), ("addonId", Json.str "i1")]

def sampleRecB : Json := Json.obj [("pname", Json.str "beta"), ("version", Json.str "1"),
  ("url", Json.str "u2"), ("hash", Json.str "h2"), ("addonId", Json.str "i2")]

def sampleRecC : Json := Json.obj [("pname", Json.str "gamma"), ("version", Json.str "1"),
  ("url", Json.str "u3"), ("hash", Json.str "h3"), ("addonId", Json.str "i3")]

/-- The mapped record the script produces for `sampleLocaleOpt`. -/
def sampleLocaleOptMapped : Json := Json.obj [
  ("pname", Json.str "some-addon"),
  ("version", Json.str "2.0"),
  ("url", Json.str "u"),
  ("hash", Json.str "sha256-y"),
  ("addonId", Json.str "g5")]

theorem pure_eq_ok {α : Type} (a : α) : (pure a : Except PyErr α) = Except.ok a := rfl

theorem throw_eq_error {α : Type} (e : PyErr) : (throw e : Except PyErr α) = Except.error e := rfl

theorem ebind_ok_iff {α β : Type} {x : Except PyErr α} {f : α → Except PyErr β} {b : β} :
    (x >>= f) = Except.ok b ↔ ∃ a, x = Except.ok a ∧ f a = Except.ok b := by
  cases x <;> simp [Bind.bind, Except.bind]

theorem ebind_ok_app {α β : Type} (a : α) (f : α → Except PyErr β) :
    (Except.ok a : Except PyErr α) >>= f = f a := rfl

theorem requiredOrWrapped_ok_iff {result : Json} {v : Bool} {b : List (String × Json)} :
    requiredOrWrapped result v = Except.ok b ↔ extractRequired result v = Except.ok b := by
  unfold requiredOrWrapped
  cases h : extractRequired result v with
  | ok a => simp
  | error e => cases e <;> simp [wrapKeyError]

theorem process_ok_inv {result : Json} {v : Bool} {mapped : Json}
    (h : process_result result v = Except.ok mapped) :
    statusCheck result = Except.ok () ∧
    ∃ base meta, extractRequired result v = Except.ok base ∧
      buildMeta result = Except.ok meta ∧
      mapped = Json.obj (if meta.isEmpty then base else base ++ [("meta", Json.obj meta)]) := by
  simp only [process_result, ebind_ok_iff, pure_eq_ok, Except.ok.injEq] at h
  obtain ⟨u, hu, base, hbase, meta, hmeta, hm⟩ := h
  rw [requiredOrWrapped_ok_iff] at hbase
  cases u
  exact ⟨hu, base, meta, hbase, hmeta, hm.symm⟩

theorem buildMeta_ok_inv {result : Json} {meta : List (String × Json)}
    (h : buildMeta result = Except.ok meta) :
    ∃ m1 m2 m3 m4 m5 m6 m7 m8 m9 m10 m11,
      metaHomepage result = Except.ok m1 ∧
      metaDescription result = Except.ok m2 ∧
      metaLicense result = Except.ok m3 ∧
      metaFilePerms result = Except.ok m4 ∧
      keyedEntry result "requires_payment" "requiresPayment" = Except.ok m5 ∧
      metaCompatibility result = Except.ok m6 ∧
      keyedEntry result "categories" "categories" = Except.ok m7 ∧
      keyedEntry result "tags" "tags" = Except.ok m8 ∧
      keyedEntry result "has_eula" "hasEula" = Except.ok m9 ∧
      keyedEntry result "has_privacy_policy" "hasPrivacyPolicy" = Except.ok m10 ∧
      metaPromoted result = Except.ok m11 ∧
      meta = m1 ++ m2 ++ m3 ++ m4 ++ m5 ++ m6 ++ m7 ++ m8 ++ m9 ++ m10 ++ m11 := by
  simp only [buildMeta, ebind_ok_iff, pure_eq_ok, Except.ok.injEq] at h
  obtain ⟨m1, h1, m2, h2, m3, h3, m4, h4, m5, h5, m6, h6, m7, h7, m8, h8, m9, h9,
    m10, h10, m11, h11, hm⟩ := h
  exact ⟨m1, m2, m3, m4, m5, m6, m7, m8, m9, m10, m11,
    h1, h2, h3, h4, h5, h6, h7, h8, h9, h10, h11, hm.symm⟩

theorem keyedEntry_ok_shape {o : Json} {s k : String} {m : List (String × Json)}
    (h : keyedEntry o s k = Except.ok m) : m = [] ∨ ∃ v, m = [(k, v)] := by
  unfold keyedEntry at h
  cases hb : o.hasKey s with
  | error e => rw [hb] at h; simp [Bind.bind, Except.bind] at h
  | ok b =>
    rw [hb, ebind_ok_app] at h
    cases b with
    | false =>
      simp [pure_eq_ok] at h
      exact Or.inl h
    | true =>
      simp only [eq_self_iff_true, if_true] at h
      cases hv : o.index s with
      | error e => rw [hv] at h; simp [Bind.bind, Except.bind] at h
      | ok v =>
        rw [hv, ebind_ok_app] at h
        simp [pure_eq_ok] at h
        exact Or.inr ⟨v, h.symm⟩

theorem metaHomepage_ok_shape {result : Json} {m : List (String × Json)}
    (h : metaHomepage result = Except.ok m) : m = [] ∨ ∃ v, m = [("homepage", v)] := by
  unfold metaHomepage at h
  cases hg : result.pyGet "homepage" with
  | error e => rw [hg] at h; simp [Bind.bind, Except.bind] at h
  | ok hp =>
    rw [hg, ebind_ok_app] at h
    by_cases ht : hp.truthy
    · rw [if_pos ht] at h
      cases hu : hp.pyGet "url" with
      | error e => rw [hu] at h; simp [Bind.bind, Except.bind] at h
      | ok url_obj =>
        rw [hu, ebind_ok_app] at h
        by_cases ht2 : url_obj.truthy
        · rw [if_pos ht2] at h
          by_cases hn : (if url_obj.isDict = true then Json.getOrNone url_obj "en-US" else url_obj).isNone
          · rw [if_pos hn] at h; simp [pure_eq_ok] at h; exact Or.inl h
          · rw [if_neg hn] at h; simp [pure_eq_ok] at h; exact Or.inr ⟨_, h.symm⟩
        · rw [if_neg ht2] at h; simp [pure_eq_ok] at h; exact Or.inl h
    · rw [if_neg ht] at h; simp [pure_eq_ok] at h; exact Or.inl h

theorem metaDescription_ok_shape {result : Json} {m : List (String × Json)}
    (h : metaDescription result = Except.ok m) : m = [] ∨ ∃ v, m = [("description", v)] := by
  unfold metaDescription at h
  cases hg : result.pyGet "summary" with
  | error e => rw [hg] at h; simp [Bind.bind, Except.bind] at h
  | ok so =>
    rw [hg, ebind_ok_app] at h
    by_cases ht : so.truthy
    · rw [if_pos ht] at h
      by_cases hn : (if so.isDict = true then Json.getOrNone so "en-US" else so).isNone
      · rw [if_pos hn] at h; simp [pure_eq_ok] at h; exact Or.inl h
      · rw [if_neg hn] at h; simp [pure_eq_ok] at h; exact Or.inr ⟨_, h.symm⟩
    · rw [if_neg ht] at h; simp [pure_eq_ok] at h; exact Or.inl h

theorem metaLicense_ok_shape {result : Json} {m : List (String × Json)}
    (h : metaLicense result = Except.ok m) : m = [] ∨ ∃ v, m = [("license", v)] := by
  unfold metaLicense at h
  cases hc : result.pyGetD "current_version" (Json.obj []) with
  | error e => rw [hc] at h; simp [Bind.bind, Except.bind] at h
  | ok cv =>
    rw [hc, ebind_ok_app] at h
    cases hl : cv.pyGet "license" with
    | error e => rw [hl] at h; simp [Bind.bind, Except.bind] at h
    | ok lo =>
      rw [hl, ebind_ok_app] at h
      by_cases ht : lo.truthy
      · rw [if_pos ht] at h
        cases hb : lo.hasKey "slug" with
        | error e => rw [hb] at h; simp [Bind.bind, Except.bind] at h
        | ok b =>
          rw [hb, ebind_ok_app] at h
          cases b with
          | false => simp [pure_eq_ok] at h; exact Or.inl h
          | true =>
            simp only [eq_self_iff_true, if_true] at h
            cases hv : lo.index "slug" with
            | error e => rw [hv] at h; simp [Bind.bind, Except.bind] at h
            | ok v => rw [hv, ebind_ok_app] at h; simp [pure_eq_ok] at h; exact Or.inr ⟨v, h.symm⟩
      · rw [if_neg ht] at h; simp [pure_eq_ok] at h; exact Or.inl h

theorem metaCompatibility_ok_shape {result : Json} {m : List (String × Json)}
    (h : metaCompatibility result = Except.ok m) : m = [] ∨ ∃ v, m = [("compatibility", v)] := by
  unfold metaCompatibility at h
  cases hg : result.pyGet "compatibility" with
  | error e => rw [hg] at h; simp [Bind.bind, Except.bind] at h
  | ok co =>
    rw [hg, ebind_ok_app] at h
    by_cases ht : co.truthy
    · rw [if_pos ht] at h
      cases hb : co.hasKey "firefox" with
      | error e => rw [hb] at h; simp [Bind.bind, Except.bind] at h
      | ok b =>
        rw [hb, ebind_ok_app] at h
        cases b with
        | false => simp [pure_eq_ok] at h; exact Or.inl h
        | true =>
          simp only [eq_self_iff_true, if_true] at h
          cases hv : co.index "firefox" with
          | error e => rw [hv] at h; simp [Bind.bind, Except.bind] at h
          | ok v => rw [hv, ebind_ok_app] at h; simp [pure_eq_ok] at h; exact Or.inr ⟨v, h.symm⟩
    · rw [if_neg ht] at h; simp [pure_eq_ok] at h; exact Or.inl h

theorem metaPromoted_ok_shape {result : Json} {m : List (String × Json)}
    (h : metaPromoted result = Except.ok m) : m = [] ∨ ∃ v, m = [("promotedCategory", v)] := by
  unfold metaPromoted at h
  cases hg : result.pyGet "promoted" with
  | error e => rw [hg] at h; simp [Bind.bind, Except.bind] at h
  | ok po =>
    rw [hg, ebind_ok_app] at h
    by_cases ht : po.truthy
    · rw [if_pos ht] at h
      cases hb : po.hasKey "category" with
      | error e => rw [hb] at h; simp [Bind.bind, Except.bind] at h
      | ok b =>
        rw [hb, ebind_ok_app] at h
        cases b with
        | false => simp [pure_eq_ok] at h; exact Or.inl h
        | true =>
          simp only [eq_self_iff_true, if_true] at h
          cases hv : po.index "category" with
          | error e => rw [hv] at h; simp [Bind.bind, Except.bind] at h
          | ok v => rw [hv, ebind_ok_app] at h; simp [pure_eq_ok] at h; exact Or.inr ⟨v, h.symm⟩
    · rw [if_neg ht] at h; simp [pure_eq_ok] at h; exact Or.inl h

theorem metaFilePerms_ok_shape {result : Json} {m : List (String × Json)}
    (h : metaFilePerms result = Except.ok m) :
    ∀ p ∈ m.map Prod.fst, p = "permissions" ∨ p = "hostPermissions" ∨ p = "optionalPermissions" := by
  unfold metaFilePerms at h
  cases hc : result.pyGetD "current_version" (Json.obj []) with
  | error e => rw [hc] at h; simp [Bind.bind, Except.bind] at h
  | ok cv =>
    rw [hc, ebind_ok_app] at h
    cases hf : cv.pyGetD "file" (Json.obj []) with
    | error e => rw [hf] at h; simp [Bind.bind, Except.bind] at h
    | ok fo =>
      rw [hf, ebind_ok_app] at h
      cases h1 : keyedEntry fo "permissions" "permissions" with
      | error e => rw [h1] at h; simp [Bind.bind, Except.bind] at h
      | ok l1 =>
        rw [h1, ebind_ok_app] at h
        cases h2 : keyedEntry fo "host_permissions" "hostPermissions" with
        | error e => rw [h2] at h; simp [Bind.bind, Except.bind] at h
        | ok l2 =>
          rw [h2, ebind_ok_app] at h
          cases h3 : keyedEntry fo "optional_permissions" "optionalPermissions" with
          | error e => rw [h3] at h; simp [Bind.bind, Except.bind] at h
          | ok l3 =>
            rw [h3, ebind_ok_app] at h
            simp [pure_eq_ok] at h
            subst h
            intro p hp
            simp [List.map_append] at hp
            rcases hp with hp | hp | hp
            · rcases keyedEntry_ok_shape h1 with rfl | ⟨v, rfl⟩ <;> simp_all
            · rcases keyedEntry_ok_shape h2 with rfl | ⟨v, rfl⟩ <;> simp_all
            · rcases keyedEntry_ok_shape h3 with rfl | ⟨v, rfl⟩ <;> simp_all

theorem lookup_some_not_isEmpty {kvs : List (String × Json)} {k : String} {v : Json}
    (h : kvs.lookup k = some v) : kvs.isEmpty = false := by
  cases kvs with
  | nil => simp at h
  | cons a t => simp [List.isEmpty]

theorem keyedEntry_absent {o : Json} {s k : String} {m : List (String × Json)}
    (h : keyedEntry o s k = Except.ok m) (habs : Json.lookupJ o s = none) : m = [] := by
  unfold keyedEntry at h
  cases hb : o.hasKey s with
  | error e => rw [hb] at h; simp [Bind.bind, Except.bind] at h
  | ok b =>
    rw [hb, ebind_ok_app] at h
    cases b with
    | false => simp [pure_eq_ok] at h; exact h
    | true =>
      simp only [eq_self_iff_true, if_true] at h
      cases hv : o.index s with
      | error e => rw [hv] at h; simp [Bind.bind, Except.bind] at h
      | ok v =>
        exfalso
        cases o with
        | obj kvs =>
          simp only [Json.lookupJ] at habs
          simp [Json.index, habs] at hv
        | null => simp [Json.index] at hv
        | bool b => simp [Json.index] at hv
        | num n => simp [Json.index] at hv
        | str t => simp [Json.index] at hv
        | arr l => simp [Json.index] at hv

theorem metaHomepage_absent {kvs : List (String × Json)}
    (habs : kvs.lookup "homepage" = none) :
    metaHomepage (Json.obj kvs) = Except.ok [] := by
  simp [metaHomepage, Json.pyGet, habs, ebind_ok_app, Json.truthy, pure_eq_ok]

theorem metaDescription_absent {kvs : List (String × Json)}
    (habs : kvs.lookup "summary" = none) :
    metaDescription (Json.obj kvs) = Except.ok [] := by
  simp [metaDescription, Json.pyGet, habs, ebind_ok_app, Json.truthy, pure_eq_ok]

theorem metaHomepage_no_enUS {kvs hkvs ukvs : List (String × Json)}
    (h1 : kvs.lookup "homepage" = some (Json.obj hkvs))
    (h2 : hkvs.lookup "url" = some (Json.obj ukvs))
    (h3 : ukvs.lookup "en-US" = none) :
    metaHomepage (Json.obj kvs) = Except.ok [] := by
  simp only [metaHomepage, Json.pyGet, h1, Option.getD_some, ebind_ok_app]
  rw [if_pos]
  · simp only [Json.pyGet, h2, Option.getD_some, ebind_ok_app]
    by_cases he : ukvs.isEmpty = true
    · rw [if_neg (by simp [Json.truthy, he])]
      rfl
    · rw [if_pos (by simp [Json.truthy, he])]
      simp [Json.isDict, Json.getOrNone, h3, Json.isNone, pure_eq_ok]
  · simp [Json.truthy, lookup_some_not_isEmpty h2]

theorem metaDescription_no_enUS {kvs skvs : List (String × Json)}
    (h1 : kvs.lookup "summary" = some (Json.obj skvs))
    (h3 : skvs.lookup "en-US" = none) :
    metaDescription (Json.obj kvs) = Except.ok [] := by
  simp only [metaDescription, Json.pyGet, h1, Option.getD_some, ebind_ok_app]
  by_cases he : skvs.isEmpty = true
  · rw [if_neg (by simp [Json.truthy, he])]
    rfl
  · rw [if_pos (by simp [Json.truthy, he])]
    simp [Json.isDict, Json.getOrNone, h3, Json.isNone, pure_eq_ok]

theorem metaLicense_absent {kvs : List (String × Json)} {m : List (String × Json)}
    (h : metaLicense (Json.obj kvs) = Except.ok m)
    (habs : ∀ cv, kvs.lookup "current_version" = some cv → Json.lookupJ cv "license" = none) :
    m = [] := by
  unfold metaLicense at h
  cases hcv : kvs.lookup "current_version" with
  | none =>
    simp [Json.pyGetD, hcv, ebind_ok_app, Json.pyGet, Json.truthy, pure_eq_ok] at h
    exact h
  | some cv =>
    simp only [Json.pyGetD, hcv, Option.getD_some, ebind_ok_app] at h
    have hl := habs cv hcv
    cases cv with
    | obj ckvs =>
      simp only [Json.lookupJ] at hl
      simp [Json.pyGet, hl, ebind_ok_app, Json.truthy, pure_eq_ok] at h
      exact h
    | null => simp [Json.pyGet, Bind.bind, Except.bind] at h
    | bool b => simp [Json.pyGet, Bind.bind, Except.bind] at h
    | num n => simp [Json.pyGet, Bind.bind, Except.bind] at h
    | str t => simp [Json.pyGet, Bind.bind, Except.bind] at h
    | arr l => simp [Json.pyGet, Bind.bind, Except.bind] at h

theorem metaCompatibility_absent {kvs : List (String × Json)}
    (habs : kvs.lookup "compatibility" = none) :
    metaCompatibility (Json.obj kvs) = Except.ok [] := by
  simp [metaCompatibility, Json.pyGet, habs, ebind_ok_app, Json.truthy, pure_eq_ok]

theorem metaPromoted_absent {kvs : List (String × Json)}
    (habs : kvs.lookup "promoted" = none) :
    metaPromoted (Json.obj kvs) = Except.ok [] := by
  simp [metaPromoted, Json.pyGet, habs, ebind_ok_app, Json.truthy, pure_eq_ok]

theorem metaFilePerms_absent {kvs : List (String × Json)} {m : List (String × Json)}
    (h : metaFilePerms (Json.obj kvs) = Except.ok m)
    (habs : ∀ cv fl, kvs.lookup "current_version" = some cv →
      Json.lookupJ cv "file" = some fl →
      Json.lookupJ fl "permissions" = none ∧ Json.lookupJ fl "host_permissions" = none ∧
      Json.lookupJ fl "optional_permissions" = none) :
    m = [] := by
  unfold metaFilePerms at h
  have main : ∀ (fo : Json), Json.lookupJ fo "permissions" = none →
      Json.lookupJ fo "host_permissions" = none →
      Json.lookupJ fo "optional_permissions" = none →
      (do
        let l1 ← keyedEntry fo "permissions" "permissions"
        let l2 ← keyedEntry fo "host_permissions" "hostPermissions"
        let l3 ← keyedEntry fo "optional_permissions" "optionalPermissions"
        pure (l1 ++ l2 ++ l3) : Except PyErr (List (String × Json))) = Except.ok m → m = [] := by
    intro fo hp hh ho hrun
    cases e1 : keyedEntry fo "permissions" "permissions" with
    | error e => rw [e1] at hrun; simp [Bind.bind, Except.bind] at hrun
    | ok l1 =>
      rw [e1, ebind_ok_app] at hrun
      cases e2 : keyedEntry fo "host_permissions" "hostPermissions" with
      | error e => rw [e2] at hrun; simp [Bind.bind, Except.bind] at hrun
      | ok l2 =>
        rw [e2, ebind_ok_app] at hrun
        cases e3 : keyedEntry fo "optional_permissions" "optionalPermissions" with
        | error e => rw [e3] at hrun; simp [Bind.bind, Except.bind] at hrun
        | ok l3 =>
          rw [e3, ebind_ok_app] at hrun
          simp [pure_eq_ok] at hrun
          rw [keyedEntry_absent e1 hp, keyedEntry_absent e2 hh, keyedEntry_absent e3 ho] at hrun
          simp at hrun
          exact hrun
  cases hcv : kvs.lookup "current_version" with
  | none =>
    simp only [Json.pyGetD, hcv, Option.getD_none, ebind_ok_app] at h
    simp only [List.lookup] at h
    exact main (Json.obj []) rfl rfl rfl h
  | some cv =>
    simp only [Json.pyGetD, hcv, Option.getD_some, ebind_ok_app] at h
    cases cv with
    | obj ckvs =>
      cases hfl : ckvs.lookup "file" with
      | none =>
        simp only [Json.pyGetD, hfl, Option.getD_none, ebind_ok_app] at h
        exact main (Json.obj []) rfl rfl rfl h
      | some fl =>
        simp only [Json.pyGetD, hfl, Option.getD_some, ebind_ok_app] at h
        have := habs (Json.obj ckvs) fl hcv (by simpa [Json.lookupJ] using hfl)
        exact main fl this.1 this.2.1 this.2.2 h
    | null => simp [Json.pyGetD, Bind.bind, Except.bind] at h
    | bool b => simp [Json.pyGetD, Bind.bind, Except.bind] at h
    | num n => simp [Json.pyGetD, Bind.bind, Except.bind] at h
    | str t => simp [Json.pyGetD, Bind.bind, Except.bind] at h
    | arr l => simp [Json.pyGetD, Bind.bind, Except.bind] at h


theorem pyEqStr_public : pyEqStr (Json.str "public") "public" = true := rfl

theorem extractRequired_ok_shape {result : Json} {v : Bool} {base : List (String × Json)}
    (h : extractRequired result v = Except.ok base) :
    ∃ p vv u hsh a, base =
      [("pname", p), ("version", vv), ("url", u), ("hash", Json.str hsh), ("addonId", a)] := by
  unfold extractRequired at h
  obtain ⟨slug, hs, h⟩ := ebind_ok_iff.mp h
  obtain ⟨pname, hp, h⟩ := ebind_ok_iff.mp h
  obtain ⟨cv1, h1, h⟩ := ebind_ok_iff.mp h
  obtain ⟨ver, h2, h⟩ := ebind_ok_iff.mp h
  obtain ⟨cv2, h3, h⟩ := ebind_ok_iff.mp h
  obtain ⟨f2, h4, h⟩ := ebind_ok_iff.mp h
  obtain ⟨url, h5, h⟩ := ebind_ok_iff.mp h
  obtain ⟨cv3, h6, h⟩ := ebind_ok_iff.mp h
  obtain ⟨f3, h7, h⟩ := ebind_ok_iff.mp h
  obtain ⟨hj, h8, h⟩ := ebind_ok_iff.mp h
  obtain ⟨hstr, h9, h⟩ := ebind_ok_iff.mp h
  obtain ⟨g1, h10, h⟩ := ebind_ok_iff.mp h
  obtain ⟨ch, h11, h⟩ := ebind_ok_iff.mp h
  obtain ⟨aid, h12, h⟩ := ebind_ok_iff.mp h
  rw [pure_eq_ok] at h
  exact ⟨pname, ver, url, ch, aid, ((Except.ok.injEq _ _).mp h).symm⟩

theorem process_ok_structure {result : Json} {v : Bool} {mapped : Json}
    (h : process_result result v = Except.ok mapped) :
    ∃ meta, buildMeta result = Except.ok meta ∧
      (meta.isEmpty = true → Json.member mapped "meta" = false) ∧
      mappedMetaKeys mapped ⊆ meta.map Prod.fst := by
  obtain ⟨hsc, base, meta, hext, hbm, hm⟩ := process_ok_inv h
  obtain ⟨p, vv, u, hs, a, hb⟩ := extractRequired_ok_shape hext
  subst hb
  refine ⟨meta, hbm, ?_⟩
  cases hme : meta.isEmpty with
  | true =>
    rw [hm, if_pos hme]
    exact ⟨fun _ => rfl, by intro x hx; simp [mappedMetaKeys, List.lookup] at hx⟩
  | false =>
    rw [hm, if_neg (by simp [hme])]
    refine ⟨fun hc => by simp [hme] at hc, ?_⟩
    intro x hx
    simpa [mappedMetaKeys, List.lookup] using hx

theorem process_error_of_statusCheck {result : Json} {v : Bool} {e : PyErr}
    (h : statusCheck result = Except.error e) :
    process_result result v = Except.error e := by
  unfold process_result
  rw [h]
  simp [Bind.bind, Except.bind]

theorem statusCheck_fail_top {kvs : List (String × Json)} {st : Json} {g : String}
    (hst : kvs.lookup "status" = some st)
    (hpe : pyEqStr st "public" = false)
    (hg : kvs.lookup "guid" = some (Json.str g)) :
    statusCheck (Json.obj kvs) = Except.error (PyErr.exception
      ("Addon " ++ g ++ " does not have required status \x27public\x27.")) := by
  unfold statusCheck
  simp [Json.index, hst, ebind_ok_app, hpe, throw_eq_error, Bind.bind, Except.bind,
    Json.getOrNone, hg, pyStr]

theorem statusCheck_fail_file {kvs ckvs fkvs : List (String × Json)} {fstat : Json} {g : String}
    (hst : kvs.lookup "status" = some (Json.str "public"))
    (hcv : kvs.lookup "current_version" = some (Json.obj ckvs))
    (hfl : ckvs.lookup "file" = some (Json.obj fkvs))
    (hfs : fkvs.lookup "status" = some fstat)
    (hpe : pyEqStr fstat "public" = false)
    (hg : kvs.lookup "guid" = some (Json.str g)) :
    statusCheck (Json.obj kvs) = Except.error (PyErr.exception
      ("Addon " ++ g ++ " current_version file does not have status \x27public\x27.")) := by
  unfold statusCheck
  simp [Json.index, hst, hcv, hfl, hfs, ebind_ok_app, hpe, throw_eq_error,
    Bind.bind, Except.bind, Json.getOrNone, hg, pyStr, pyEqStr_public, pure_eq_ok]

theorem statusCheck_ok_of_public {kvs ckvs fkvs : List (String × Json)}
    (hst : kvs.lookup "status" = some (Json.str "public"))
    (hcv : kvs.lookup "current_version" = some (Json.obj ckvs))
    (hfl : ckvs.lookup "file" = some (Json.obj fkvs))
    (hfs : fkvs.lookup "status" = some (Json.str "public")) :
    statusCheck (Json.obj kvs) = Except.ok () := by
  unfold statusCheck
  simp [Json.index, hst, hcv, hfl, hfs, ebind_ok_app, pyEqStr_public, pure_eq_ok,
    Bind.bind, Except.bind]

theorem singleton_key_ne {kj K : String} {mj : List (String × Json)}
    (hshape : mj = [] ∨ ∃ v, mj = [(kj, v)]) (hne : K ≠ kj) : K ∉ mj.map Prod.fst := by
  rcases hshape with rfl | ⟨v, rfl⟩
  · simp
  · simp [hne]

theorem buildMeta_key_absent {result : Json} {meta : List (String × Json)} {K : String}
    (h : buildMeta result = Except.ok meta)
    (c1 : ∀ m, metaHomepage result = Except.ok m → K ∉ m.map Prod.fst)
    (c2 : ∀ m, metaDescription result = Except.ok m → K ∉ m.map Prod.fst)
    (c3 : ∀ m, metaLicense result = Except.ok m → K ∉ m.map Prod.fst)
    (c4 : ∀ m, metaFilePerms result = Except.ok m → K ∉ m.map Prod.fst)
    (c5 : ∀ m, keyedEntry result "requires_payment" "requiresPayment" = Except.ok m →
      K ∉ m.map Prod.fst)
    (c6 : ∀ m, metaCompatibility result = Except.ok m → K ∉ m.map Prod.fst)
    (c7 : ∀ m, keyedEntry result "categories" "categories" = Except.ok m → K ∉ m.map Prod.fst)
    (c8 : ∀ m, keyedEntry result "tags" "tags" = Except.ok m → K ∉ m.map Prod.fst)
    (c9 : ∀ m, keyedEntry result "has_eula" "hasEula" = Except.ok m → K ∉ m.map Prod.fst)
    (c10 : ∀ m, keyedEntry result "has_privacy_policy" "hasPrivacyPolicy" = Except.ok m →
      K ∉ m.map Prod.fst)
    (c11 : ∀ m, metaPromoted result = Except.ok m → K ∉ m.map Prod.fst) :
    K ∉ meta.map Prod.fst := by
  obtain ⟨m1, m2, m3, m4, m5, m6, m7, m8, m9, m10, m11,
    h1, h2, h3, h4, h5, h6, h7, h8, h9, h10, h11, hm⟩ := buildMeta_ok_inv h
  subst hm
  intro hmem
  simp only [List.map_append, List.mem_append] at hmem
  rcases hmem with ((((((((((hK | hK) | hK) | hK) | hK) | hK) | hK) | hK) | hK) | hK) | hK)
  · exact c1 m1 h1 hK
  · exact c2 m2 h2 hK
  · exact c3 m3 h3 hK
  · exact c4 m4 h4 hK
  · exact c5 m5 h5 hK
  · exact c6 m6 h6 hK
  · exact c7 m7 h7 hK
  · exact c8 m8 h8 hK
  · exact c9 m9 h9 hK
  · exact c10 m10 h10 hK
  · exact c11 m11 h11 hK

theorem filePerms_key_notin {result : Json} {m : List (String × Json)} {K : String}
    (h : metaFilePerms result = Except.ok m)
    (h1 : K ≠ "permissions") (h2 : K ≠ "hostPermissions") (h3 : K ≠ "optionalPermissions") :
    K ∉ m.map Prod.fst := by
  intro hmem
  rcases metaFilePerms_ok_shape h K hmem with hk | hk | hk
  · exact h1 hk
  · exact h2 hk
  · exact h3 hk

theorem metaFilePerms_fo {kvs : List (String × Json)} {m4 : List (String × Json)}
    (h : metaFilePerms (Json.obj kvs) = Except.ok m4) :
    ∃ fo l1 l2 l3,
      keyedEntry fo "permissions" "permissions" = Except.ok l1 ∧
      keyedEntry fo "host_permissions" "hostPermissions" = Except.ok l2 ∧
      keyedEntry fo "optional_permissions" "optionalPermissions" = Except.ok l3 ∧
      m4 = l1 ++ l2 ++ l3 ∧
      (fo = Json.obj [] ∨ ∃ cv, kvs.lookup "current_version" = some cv ∧
        Json.lookupJ cv "file" = some fo) := by
  unfold metaFilePerms at h
  cases hcv : kvs.lookup "current_version" with
  | none =>
    simp only [Json.pyGetD, hcv, Option.getD_none, ebind_ok_app] at h
    obtain ⟨l1, e1, h⟩ := ebind_ok_iff.mp h
    obtain ⟨l2, e2, h⟩ := ebind_ok_iff.mp h
    obtain ⟨l3, e3, h⟩ := ebind_ok_iff.mp h
    rw [pure_eq_ok] at h
    exact ⟨Json.obj [], l1, l2, l3, e1, e2, e3, ((Except.ok.injEq _ _).mp h).symm, Or.inl rfl⟩
  | some cv =>
    simp only [Json.pyGetD, hcv, Option.getD_some, ebind_ok_app] at h
    cases cv with
    | obj ckvs =>
      cases hfl : ckvs.lookup "file" with
      | none =>
        simp only [Json.pyGetD, hfl, Option.getD_none, ebind_ok_app] at h
        obtain ⟨l1, e1, h⟩ := ebind_ok_iff.mp h
        obtain ⟨l2, e2, h⟩ := ebind_ok_iff.mp h
        obtain ⟨l3, e3, h⟩ := ebind_ok_iff.mp h
        rw [pure_eq_ok] at h
        exact ⟨Json.obj [], l1, l2, l3, e1, e2, e3, ((Except.ok.injEq _ _).mp h).symm, Or.inl rfl⟩
      | some fl =>
        simp only [Json.pyGetD, hfl, Option.getD_some, ebind_ok_app] at h
        obtain ⟨l1, e1, h⟩ := ebind_ok_iff.mp h
        obtain ⟨l2, e2, h⟩ := ebind_ok_iff.mp h
        obtain ⟨l3, e3, h⟩ := ebind_ok_iff.mp h
        rw [pure_eq_ok] at h
        exact ⟨fl, l1, l2, l3, e1, e2, e3, ((Except.ok.injEq _ _).mp h).symm,
          Or.inr ⟨Json.obj ckvs, rfl, by simpa [Json.lookupJ] using hfl⟩⟩
    | null => simp [Json.pyGetD, Bind.bind, Except.bind] at h
    | bool b => simp [Json.pyGetD, Bind.bind, Except.bind] at h
    | num n => simp [Json.pyGetD, Bind.bind, Except.bind] at h
    | str t => simp [Json.pyGetD, Bind.bind, Except.bind] at h
    | arr l => simp [Json.pyGetD, Bind.bind, Except.bind] at h

theorem metaFilePerms_notin_permissions {kvs : List (String × Json)} {m4 : List (String × Json)}
    (h : metaFilePerms (Json.obj kvs) = Except.ok m4)
    (habs : ∀ cv fl, kvs.lookup "current_version" = some cv → Json.lookupJ cv "file" = some fl →
      Json.lookupJ fl "permissions" = none) :
    "permissions" ∉ m4.map Prod.fst := by
  obtain ⟨fo, l1, l2, l3, e1, e2, e3, hm, hfo⟩ := metaFilePerms_fo h
  have hl1 : l1 = [] := by
    rcases hfo with rfl | ⟨cv, hcv, hfl⟩
    · exact keyedEntry_absent e1 rfl
    · exact keyedEntry_absent e1 (habs cv fo hcv hfl)
  subst hm hl1
  intro hmem
  simp only [List.map_append, List.mem_append] at hmem
  rcases hmem with (hK | hK) | hK
  · simp at hK
  · exact singleton_key_ne (keyedEntry_ok_shape e2) (by decide) hK
  · exact singleton_key_ne (keyedEntry_ok_shape e3) (by decide) hK

theorem metaFilePerms_notin_host {kvs : List (String × Json)} {m4 : List (String × Json)}
    (h : metaFilePerms (Json.obj kvs) = Except.ok m4)
    (habs : ∀ cv fl, kvs.lookup "current_version" = some cv → Json.lookupJ cv "file" = some fl →
      Json.lookupJ fl "host_permissions" = none) :
    "hostPermissions" ∉ m4.map Prod.fst := by
  obtain ⟨fo, l1, l2, l3, e1, e2, e3, hm, hfo⟩ := metaFilePerms_fo h
  have hl2 : l2 = [] := by
    rcases hfo with rfl | ⟨cv, hcv, hfl⟩
    · exact keyedEntry_absent e2 rfl
    · exact keyedEntry_absent e2 (habs cv fo hcv hfl)
  subst hm hl2
  intro hmem
  simp only [List.map_append, List.mem_append] at hmem
  rcases hmem with (hK | hK) | hK
  · exact singleton_key_ne (keyedEntry_ok_shape e1) (by decide) hK
  · simp at hK
  · exact singleton_key_ne (keyedEntry_ok_shape e3) (by decide) hK

theorem metaFilePerms_notin_optional {kvs : List (String × Json)} {m4 : List (String × Json)}
    (h : metaFilePerms (Json.obj kvs) = Except.ok m4)
    (habs : ∀ cv fl, kvs.lookup "current_version" = some cv → Json.lookupJ cv "file" = some fl →
      Json.lookupJ fl "optional_permissions" = none) :
    "optionalPermissions" ∉ m4.map Prod.fst := by
  obtain ⟨fo, l1, l2, l3, e1, e2, e3, hm, hfo⟩ := metaFilePerms_fo h
  have hl3 : l3 = [] := by
    rcases hfo with rfl | ⟨cv, hcv, hfl⟩
    · exact keyedEntry_absent e3 rfl
    · exact keyedEntry_absent e3 (habs cv fo hcv hfl)
  subst hm hl3
  intro hmem
  simp only [List.map_append, List.mem_append] at hmem
  rcases hmem with (hK | hK) | hK
  · exact singleton_key_ne (keyedEntry_ok_shape e1) (by decide) hK
  · exact singleton_key_ne (keyedEntry_ok_shape e2) (by decide) hK
  · simp at hK

theorem keys_notin_of_ok_empty {x : Except PyErr (List (String × Json))}
    {m : List (String × Json)} {K : String}
    (hx : x = Except.ok []) (hm : x = Except.ok m) : K ∉ m.map Prod.fst := by
  rw [hx] at hm
  injection hm with h
  subst h
  simp

theorem ok_list_empty {x : Except PyErr (List (String × Json))} {m : List (String × Json)}
    (hx : x = Except.ok []) (hm : x = Except.ok m) : m = [] := by
  rw [hx] at hm
  injection hm with h
  exact h.symm

/-- C8: for every raw record that maps successfully, each absent optional
field is omitted from the mapped record's meta mapping (never a null or
empty placeholder), and when none of the optional fields is present the
mapped record carries no meta key at all. -/
theorem process_result_optional_omission :
    ∀ (result : Json) (v : Bool) (mapped : Json) (kvs : List (String × Json)),
      result = Json.obj kvs →
      process_result result v = Except.ok mapped →
      ((kvs.lookup "homepage" = none) →
        "homepage" ∉ mappedMetaKeys mapped) ∧
      ((kvs.lookup "summary" = none) →
        "description" ∉ mappedMetaKeys mapped) ∧
      ((∀ cv, kvs.lookup "current_version" = some cv → Json.lookupJ cv "license" = none) →
        "license" ∉ mappedMetaKeys mapped) ∧
      ((∀ cv fl, kvs.lookup "current_version" = some cv → Json.lookupJ cv "file" = some fl → Json.lookupJ fl "permissions" = none) →
        "permissions" ∉ mappedMetaKeys mapped) ∧
      ((∀ cv fl, kvs.lookup "current_version" = some cv → Json.lookupJ cv "file" = some fl → Json.lookupJ fl "host_permissions" = none) →
        "hostPermissions" ∉ mappedMetaKeys mapped) ∧
      ((∀ cv fl, kvs.lookup "current_version" = some cv → Json.lookupJ cv "file" = some fl → Json.lookupJ fl "optional_permissions" = none) →
        "optionalPermissions" ∉ mappedMetaKeys mapped) ∧
      ((kvs.lookup "requires_payment" = none) →
        "requiresPayment" ∉ mappedMetaKeys mapped) ∧
      ((kvs.lookup "compatibility" = none) →
        "compatibility" ∉ mappedMetaKeys mapped) ∧
      ((kvs.lookup "categories" = none) →
        "categories" ∉ mappedMetaKeys mapped) ∧
      ((kvs.lookup "tags" = none) →
        "tags" ∉ mappedMetaKeys mapped) ∧
      ((kvs.lookup "has_eula" = none) →
        "hasEula" ∉ mappedMetaKeys mapped) ∧
      ((kvs.lookup "has_privacy_policy" = none) →
        "hasPrivacyPolicy" ∉ mappedMetaKeys mapped) ∧
      ((kvs.lookup "promoted" = none) →
        "promotedCategory" ∉ mappedMetaKeys mapped) ∧
      (((kvs.lookup "homepage" = none) ∧
        (kvs.lookup "summary" = none) ∧
        (∀ cv, kvs.lookup "current_version" = some cv → Json.lookupJ cv "license" = none) ∧
        (∀ cv fl, kvs.lookup "current_version" = some cv → Json.lookupJ cv "file" = some fl → Json.lookupJ fl "permissions" = none) ∧
        (∀ cv fl, kvs.lookup "current_version" = some cv → Json.lookupJ cv "file" = some fl → Json.lookupJ fl "host_permissions" = none) ∧
        (∀ cv fl, kvs.lookup "current_version" = some cv → Json.lookupJ cv "file" = some fl → Json.lookupJ fl "optional_permissions" = none) ∧
        (kvs.lookup "requires_payment" = none) ∧
        (kvs.lookup "compatibility" = none) ∧
        (kvs.lookup "categories" = none) ∧
        (kvs.lookup "tags" = none) ∧
        (kvs.lookup "has_eula" = none) ∧
        (kvs.lookup "has_privacy_policy" = none) ∧
        (kvs.lookup "promoted" = none)) →
        Json.member mapped "meta" = false) := by
  intro result v mapped kvs hres hok
  subst hres
  obtain ⟨meta, hbm, hmeta_empty, hsub⟩ := process_ok_structure hok
  refine ⟨?_, ?_, ?_, ?_, ?_, ?_, ?_, ?_, ?_, ?_, ?_, ?_, ?_, ?_⟩
  · intro habs hmem
    refine absurd (hsub hmem) (buildMeta_key_absent hbm
      (fun m hm => keys_notin_of_ok_empty (metaHomepage_absent habs) hm)
      (fun m hm => singleton_key_ne (metaDescription_ok_shape hm) (by decide))
      (fun m hm => singleton_key_ne (metaLicense_ok_shape hm) (by decide))
      (fun m hm => filePerms_key_notin hm (by decide) (by decide) (by decide))
      (fun m hm => singleton_key_ne (keyedEntry_ok_shape hm) (by decide))
      (fun m hm => singleton_key_ne (metaCompatibility_ok_shape hm) (by decide))
      (fun m hm => singleton_key_ne (keyedEntry_ok_shape hm) (by decide))
      (fun m hm => singleton_key_ne (keyedEntry_ok_shape hm) (by decide))
      (fun m hm => singleton_key_ne (keyedEntry_ok_shape hm) (by decide))
      (fun m hm => singleton_key_ne (keyedEntry_ok_shape hm) (by decide))
      (fun m hm => singleton_key_ne (metaPromoted_ok_shape hm) (by decide)))
  · intro habs hmem
    refine absurd (hsub hmem) (buildMeta_key_absent hbm
      (fun m hm => singleton_key_ne (metaHomepage_ok_shape hm) (by decide))
      (fun m hm => keys_notin_of_ok_empty (metaDescription_absent habs) hm)
      (fun m hm => singleton_key_ne (metaLicense_ok_shape hm) (by decide))
      (fun m hm => filePerms_key_notin hm (by decide) (by decide) (by decide))
      (fun m hm => singleton_key_ne (keyedEntry_ok_shape hm) (by decide))
      (fun m hm => singleton_key_ne (metaCompatibility_ok_shape hm) (by decide))
      (fun m hm => singleton_key_ne (keyedEntry_ok_shape hm) (by decide))
      (fun m hm => singleton_key_ne (keyedEntry_ok_shape hm) (by decide))
      (fun m hm => singleton_key_ne (keyedEntry_ok_shape hm) (by decide))
      (fun m hm => singleton_key_ne (keyedEntry_ok_shape hm) (by decide))
      (fun m hm => singleton_key_ne (metaPromoted_ok_shape hm) (by decide)))
  · intro habs hmem
    refine absurd (hsub hmem) (buildMeta_key_absent hbm
      (fun m hm => singleton_key_ne (metaHomepage_ok_shape hm) (by decide))
      (fun m hm => singleton_key_ne (metaDescription_ok_shape hm) (by decide))
      (fun m hm => by rw [metaLicense_absent hm habs]; simp)
      (fun m hm => filePerms_key_notin hm (by decide) (by decide) (by decide))
      (fun m hm => singleton_key_ne (keyedEntry_ok_shape hm) (by decide))
      (fun m hm => singleton_key_ne (metaCompatibility_ok_shape hm) (by decide))
      (fun m hm => singleton_key_ne (keyedEntry_ok_shape hm) (by decide))
      (fun m hm => singleton_key_ne (keyedEntry_ok_shape hm) (by decide))
      (fun m hm => singleton_key_ne (keyedEntry_ok_shape hm) (by decide))
      (fun m hm => singleton_key_ne (keyedEntry_ok_shape hm) (by decide))
      (fun m hm => singleton_key_ne (metaPromoted_ok_shape hm) (by decide)))
  · intro habs hmem
    refine absurd (hsub hmem) (buildMeta_key_absent hbm
      (fun m hm => singleton_key_ne (metaHomepage_ok_shape hm) (by decide))
      (fun m hm => singleton_key_ne (metaDescription_ok_shape hm) (by decide))
      (fun m hm => singleton_key_ne (metaLicense_ok_shape hm) (by decide))
      (fun m hm => metaFilePerms_notin_permissions hm habs)
      (fun m hm => singleton_key_ne (keyedEntry_ok_shape hm) (by decide))
      (fun m hm => singleton_key_ne (metaCompatibility_ok_shape hm) (by decide))
      (fun m hm => singleton_key_ne (keyedEntry_ok_shape hm) (by decide))
      (fun m hm => singleton_key_ne (keyedEntry_ok_shape hm) (by decide))
      (fun m hm => singleton_key_ne (keyedEntry_ok_shape hm) (by decide))
      (fun m hm => singleton_key_ne (keyedEntry_ok_shape hm) (by decide))
      (fun m hm => singleton_key_ne (metaPromoted_ok_shape hm) (by decide)))
  · intro habs hmem
    refine absurd (hsub hmem) (buildMeta_key_absent hbm
      (fun m hm => singleton_key_ne (metaHomepage_ok_shape hm) (by decide))
      (fun m hm => singleton_key_ne (metaDescription_ok_shape hm) (by decide))
      (fun m hm => singleton_key_ne (metaLicense_ok_shape hm) (by decide))
      (fun m hm => metaFilePerms_notin_host hm habs)
      (fun m hm => singleton_key_ne (keyedEntry_ok_shape hm) (by decide))
      (fun m hm => singleton_key_ne (metaCompatibility_ok_shape hm) (by decide))
      (fun m hm => singleton_key_ne (keyedEntry_ok_shape hm) (by decide))
      (fun m hm => singleton_key_ne (keyedEntry_ok_shape hm) (by decide))
      (fun m hm => singleton_key_ne (keyedEntry_ok_shape hm) (by decide))
      (fun m hm => singleton_key_ne (keyedEntry_ok_shape hm) (by decide))
      (fun m hm => singleton_key_ne (metaPromoted_ok_shape hm) (by decide)))
  · intro habs hmem
    refine absurd (hsub hmem) (buildMeta_key_absent hbm
      (fun m hm => singleton_key_ne (metaHomepage_ok_shape hm) (by decide))
      (fun m hm => singleton_key_ne (metaDescription_ok_shape hm) (by decide))
      (fun m hm => singleton_key_ne (metaLicense_ok_shape hm) (by decide))
      (fun m hm => metaFilePerms_notin_optional hm habs)
      (fun m hm => singleton_key_ne (keyedEntry_ok_shape hm) (by decide))
      (fun m hm => singleton_key_ne (metaCompatibility_ok_shape hm) (by decide))
      (fun m hm => singleton_key_ne (keyedEntry_ok_shape hm) (by decide))
      (fun m hm => singleton_key_ne (keyedEntry_ok_shape hm) (by decide))
      (fun m hm => singleton_key_ne (keyedEntry_ok_shape hm) (by decide))
      (fun m hm => singleton_key_ne (keyedEntry_ok_shape hm) (by decide))
      (fun m hm => singleton_key_ne (metaPromoted_ok_shape hm) (by decide)))
  · intro habs hmem
    refine absurd (hsub hmem) (buildMeta_key_absent hbm
      (fun m hm => singleton_key_ne (metaHomepage_ok_shape hm) (by decide))
      (fun m hm => singleton_key_ne (metaDescription_ok_shape hm) (by decide))
      (fun m hm => singleton_key_ne (metaLicense_ok_shape hm) (by decide))
      (fun m hm => filePerms_key_notin hm (by decide) (by decide) (by decide))
      (fun m hm => by rw [keyedEntry_absent hm (by simpa [Json.lookupJ] using habs)]; simp)
      (fun m hm => singleton_key_ne (metaCompatibility_ok_shape hm) (by decide))
      (fun m hm => singleton_key_ne (keyedEntry_ok_shape hm) (by decide))
      (fun m hm => singleton_key_ne (keyedEntry_ok_shape hm) (by decide))
      (fun m hm => singleton_key_ne (keyedEntry_ok_shape hm) (by decide))
      (fun m hm => singleton_key_ne (keyedEntry_ok_shape hm) (by decide))
      (fun m hm => singleton_key_ne (metaPromoted_ok_shape hm) (by decide)))
  · intro habs hmem
    refine absurd (hsub hmem) (buildMeta_key_absent hbm
      (fun m hm => singleton_key_ne (metaHomepage_ok_shape hm) (by decide))
      (fun m hm => singleton_key_ne (metaDescription_ok_shape hm) (by decide))
      (fun m hm => singleton_key_ne (metaLicense_ok_shape hm) (by decide))
      (fun m hm => filePerms_key_notin hm (by decide) (by decide) (by decide))
      (fun m hm => singleton_key_ne (keyedEntry_ok_shape hm) (by decide))
      (fun m hm => keys_notin_of_ok_empty (metaCompatibility_absent habs) hm)
      (fun m hm => singleton_key_ne (keyedEntry_ok_shape hm) (by decide))
      (fun m hm => singleton_key_ne (keyedEntry_ok_shape hm) (by decide))
      (fun m hm => singleton_key_ne (keyedEntry_ok_shape hm) (by decide))
      (fun m hm => singleton_key_ne (keyedEntry_ok_shape hm) (by decide))
      (fun m hm => singleton_key_ne (metaPromoted_ok_shape hm) (by decide)))
  · intro habs hmem
    refine absurd (hsub hmem) (buildMeta_key_absent hbm
      (fun m hm => singleton_key_ne (metaHomepage_ok_shape hm) (by decide))
      (fun m hm => singleton_key_ne (metaDescription_ok_shape hm) (by decide))
      (fun m hm => singleton_key_ne (metaLicense_ok_shape hm) (by decide))
      (fun m hm => filePerms_key_notin hm (by decide) (by decide) (by decide))
      (fun m hm => singleton_key_ne (keyedEntry_ok_shape hm) (by decide))
      (fun m hm => singleton_key_ne (metaCompatibility_ok_shape hm) (by decide))
      (fun m hm => by rw [keyedEntry_absent hm (by simpa [Json.lookupJ] using habs)]; simp)
      (fun m hm => singleton_key_ne (keyedEntry_ok_shape hm) (by decide))
      (fun m hm => singleton_key_ne (keyedEntry_ok_shape hm) (by decide))
      (fun m hm => singleton_key_ne (keyedEntry_ok_shape hm) (by decide))
      (fun m hm => singleton_key_ne (metaPromoted_ok_shape hm) (by decide)))
  · intro habs hmem
    refine absurd (hsub hmem) (buildMeta_key_absent hbm
      (fun m hm => singleton_key_ne (metaHomepage_ok_shape hm) (by decide))
      (fun m hm => singleton_key_ne (metaDescription_ok_shape hm) (by decide))
      (fun m hm => singleton_key_ne (metaLicense_ok_shape hm) (by decide))
      (fun m hm => filePerms_key_notin hm (by decide) (by decide) (by decide))
      (fun m hm => singleton_key_ne (keyedEntry_ok_shape hm) (by decide))
      (fun m hm => singleton_key_ne (metaCompatibility_ok_shape hm) (by decide))
      (fun m hm => singleton_key_ne (keyedEntry_ok_shape hm) (by decide))
      (fun m hm => by rw [keyedEntry_absent hm (by simpa [Json.lookupJ] using habs)]; simp)
      (fun m hm => singleton_key_ne (keyedEntry_ok_shape hm) (by decide))
      (fun m hm => singleton_key_ne (keyedEntry_ok_shape hm) (by decide))
      (fun m hm => singleton_key_ne (metaPromoted_ok_shape hm) (by decide)))
  · intro habs hmem
    refine absurd (hsub hmem) (buildMeta_key_absent hbm
      (fun m hm => singleton_key_ne (metaHomepage_ok_shape hm) (by decide))
      (fun m hm => singleton_key_ne (metaDescription_ok_shape hm) (by decide))
      (fun m hm => singleton_key_ne (metaLicense_ok_shape hm) (by decide))
      (fun m hm => filePerms_key_notin hm (by decide) (by decide) (by decide))
      (fun m hm => singleton_key_ne (keyedEntry_ok_shape hm) (by decide))
      (fun m hm => singleton_key_ne (metaCompatibility_ok_shape hm) (by decide))
      (fun m hm => singleton_key_ne (keyedEntry_ok_shape hm) (by decide))
      (fun m hm => singleton_key_ne (keyedEntry_ok_shape hm) (by decide))
      (fun m hm => by rw [keyedEntry_absent hm (by simpa [Json.lookupJ] using habs)]; simp)
      (fun m hm => singleton_key_ne (keyedEntry_ok_shape hm) (by decide))
      (fun m hm => singleton_key_ne (metaPromoted_ok_shape hm) (by decide)))
  · intro habs hmem
    refine absurd (hsub hmem) (buildMeta_key_absent hbm
      (fun m hm => singleton_key_ne (metaHomepage_ok_shape hm) (by decide))
      (fun m hm => singleton_key_ne (metaDescription_ok_shape hm) (by decide))
      (fun m hm => singleton_key_ne (metaLicense_ok_shape hm) (by decide))
      (fun m hm => filePerms_key_notin hm (by decide) (by decide) (by decide))
      (fun m hm => singleton_key_ne (keyedEntry_ok_shape hm) (by decide))
      (fun m hm => singleton_key_ne (metaCompatibility_ok_shape hm) (by decide))
      (fun m hm => singleton_key_ne (keyedEntry_ok_shape hm) (by decide))
      (fun m hm => singleton_key_ne (keyedEntry_ok_shape hm) (by decide))
      (fun m hm => singleton_key_ne (keyedEntry_ok_shape hm) (by decide))
      (fun m hm => by rw [keyedEntry_absent hm (by simpa [Json.lookupJ] using habs)]; simp)
      (fun m hm => singleton_key_ne (metaPromoted_ok_shape hm) (by decide)))
  · intro habs hmem
    refine absurd (hsub hmem) (buildMeta_key_absent hbm
      (fun m hm => singleton_key_ne (metaHomepage_ok_shape hm) (by decide))
      (fun m hm => singleton_key_ne (metaDescription_ok_shape hm) (by decide))
      (fun m hm => singleton_key_ne (metaLicense_ok_shape hm) (by decide))
      (fun m hm => filePerms_key_notin hm (by decide) (by decide) (by decide))
      (fun m hm => singleton_key_ne (keyedEntry_ok_shape hm) (by decide))
      (fun m hm => singleton_key_ne (metaCompatibility_ok_shape hm) (by decide))
      (fun m hm => singleton_key_ne (keyedEntry_ok_shape hm) (by decide))
      (fun m hm => singleton_key_ne (keyedEntry_ok_shape hm) (by decide))
      (fun m hm => singleton_key_ne (keyedEntry_ok_shape hm) (by decide))
      (fun m hm => singleton_key_ne (keyedEntry_ok_shape hm) (by decide))
      (fun m hm => keys_notin_of_ok_empty (metaPromoted_absent habs) hm))
  · intro ⟨ha1, ha2, ha3, ha4, ha5, ha6, ha7, ha8, ha9, ha10, ha11, ha12, ha13⟩
    obtain ⟨m1, m2, m3, m4, m5, m6, m7, m8, m9, m10, m11,
      h1, h2, h3, h4, h5, h6, h7, h8, h9, h10, h11, hm⟩ := buildMeta_ok_inv hbm
    have e1 : m1 = [] := ok_list_empty (metaHomepage_absent ha1) h1
    have e2 : m2 = [] := ok_list_empty (metaDescription_absent ha2) h2
    have e3 : m3 = [] := metaLicense_absent h3 ha3
    have e4 : m4 = [] := metaFilePerms_absent h4 (fun cv fl hcv hfl =>
      ⟨ha4 cv fl hcv hfl, ha5 cv fl hcv hfl, ha6 cv fl hcv hfl⟩)
    have e5 : m5 = [] := keyedEntry_absent h5 (by simpa [Json.lookupJ] using ha7)
    have e6 : m6 = [] := ok_list_empty (metaCompatibility_absent ha8) h6
    have e7 : m7 = [] := keyedEntry_absent h7 (by simpa [Json.lookupJ] using ha9)
    have e8 : m8 = [] := keyedEntry_absent h8 (by simpa [Json.lookupJ] using ha10)
    have e9 : m9 = [] := keyedEntry_absent h9 (by simpa [Json.lookupJ] using ha11)
    have e10 : m10 = [] := keyedEntry_absent h10 (by simpa [Json.lookupJ] using ha12)
    have e11 : m11 = [] := ok_list_empty (metaPromoted_absent ha13) h11
    apply hmeta_empty
    subst hm e1 e2 e3 e4 e5 e6 e7 e8 e9 e10 e11
    rfl

/-- C2 (amended): for the optional per-locale fields (homepage.url and
summary), a mapping lacking an en-US entry yields an absent output field
rather than a fallback or an error; for the required slug field, a
per-locale mapping lacking en-US instead aborts with a missing-required-field
error. -/
theorem process_result_locale_fallback :
    (∀ (result : Json) (v : Bool) (mapped : Json) (kvs hkvs ukvs : List (String × Json)),
      result = Json.obj kvs →
      process_result result v = Except.ok mapped →
      kvs.lookup "homepage" = some (Json.obj hkvs) →
      hkvs.lookup "url" = some (Json.obj ukvs) →
      ukvs.lookup "en-US" = none →
      "homepage" ∉ mappedMetaKeys mapped) ∧
    (∀ (result : Json) (v : Bool) (mapped : Json) (kvs skvs : List (String × Json)),
      result = Json.obj kvs →
      process_result result v = Except.ok mapped →
      kvs.lookup "summary" = some (Json.obj skvs) →
      skvs.lookup "en-US" = none →
      "description" ∉ mappedMetaKeys mapped) ∧
    (∀ (result : Json) (v : Bool) (kvs skvs : List (String × Json)),
      result = Json.obj kvs →
      statusCheck result = Except.ok () →
      kvs.lookup "slug" = some (Json.obj skvs) →
      skvs.lookup "en-US" = none →
      process_result result v =
        Except.error (PyErr.exception "Missing required field: \x27en-US\x27")) := by
  refine ⟨?_, ?_, ?_⟩
  · intro result v mapped kvs hkvs ukvs hres hok h1 h2 h3
    subst hres
    obtain ⟨meta, hbm, hmeta_empty, hsub⟩ := process_ok_structure hok
    intro hmem
    refine absurd (hsub hmem) (buildMeta_key_absent hbm
      (fun m hm => keys_notin_of_ok_empty (metaHomepage_no_enUS h1 h2 h3) hm)
      (fun m hm => singleton_key_ne (metaDescription_ok_shape hm) (by decide))
      (fun m hm => singleton_key_ne (metaLicense_ok_shape hm) (by decide))
      (fun m hm => filePerms_key_notin hm (by decide) (by decide) (by decide))
      (fun m hm => singleton_key_ne (keyedEntry_ok_shape hm) (by decide))
      (fun m hm => singleton_key_ne (metaCompatibility_ok_shape hm) (by decide))
      (fun m hm => singleton_key_ne (keyedEntry_ok_shape hm) (by decide))
      (fun m hm => singleton_key_ne (keyedEntry_ok_shape hm) (by decide))
      (fun m hm => singleton_key_ne (keyedEntry_ok_shape hm) (by decide))
      (fun m hm => singleton_key_ne (keyedEntry_ok_shape hm) (by decide))
      (fun m hm => singleton_key_ne (metaPromoted_ok_shape hm) (by decide)))
  · intro result v mapped kvs skvs hres hok h1 h3
    subst hres
    obtain ⟨meta, hbm, hmeta_empty, hsub⟩ := process_ok_structure hok
    intro hmem
    refine absurd (hsub hmem) (buildMeta_key_absent hbm
      (fun m hm => singleton_key_ne (metaHomepage_ok_shape hm) (by decide))
      (fun m hm => keys_notin_of_ok_empty (metaDescription_no_enUS h1 h3) hm)
      (fun m hm => singleton_key_ne (metaLicense_ok_shape hm) (by decide))
      (fun m hm => filePerms_key_notin hm (by decide) (by decide) (by decide))
      (fun m hm => singleton_key_ne (keyedEntry_ok_shape hm) (by decide))
      (fun m hm => singleton_key_ne (metaCompatibility_ok_shape hm) (by decide))
      (fun m hm => singleton_key_ne (keyedEntry_ok_shape hm) (by decide))
      (fun m hm => singleton_key_ne (keyedEntry_ok_shape hm) (by decide))
      (fun m hm => singleton_key_ne (keyedEntry_ok_shape hm) (by decide))
      (fun m hm => singleton_key_ne (keyedEntry_ok_shape hm) (by decide))
      (fun m hm => singleton_key_ne (metaPromoted_ok_shape hm) (by decide)))
  · intro result v kvs skvs hres hsc hslug hen
    subst hres
    have hex : extractRequired (Json.obj kvs) v = Except.error (PyErr.keyError "en-US") := by
      unfold extractRequired
      rw [show Json.index (Json.obj kvs) "slug" = Except.ok (Json.obj skvs) by
        simp [Json.index, hslug]]
      rw [ebind_ok_app]
      rw [show extractPname (Json.obj skvs) = Except.error (PyErr.keyError "en-US") by
        simp [extractPname, Json.isDict, Json.index, hen]]
      simp [Bind.bind, Except.bind]
    unfold process_result
    rw [hsc, ebind_ok_app]
    rw [show requiredOrWrapped (Json.obj kvs) v =
        Except.error (PyErr.exception "Missing required field: \x27en-US\x27") by
      simp [requiredOrWrapped, hex, wrapKeyError]]
    simp [Bind.bind, Except.bind]

/-- C4: under the strict policy, a record whose top-level status or whose
current_version.file.status is not "public" makes process_result raise a
descriptive error naming the addon's guid; when both statuses are "public"
the status check itself raises nothing. -/
theorem process_result_status_policy :
    (∀ (result : Json) (v : Bool) (kvs : List (String × Json)) (st : Json) (g : String),
      result = Json.obj kvs →
      kvs.lookup "status" = some st →
      pyEqStr st "public" = false →
      kvs.lookup "guid" = some (Json.str g) →
      process_result result v = Except.error (PyErr.exception
        ("Addon " ++ g ++ " does not have required status \x27public\x27."))) ∧
    (∀ (result : Json) (v : Bool) (kvs ckvs fkvs : List (String × Json)) (fstat : Json)
        (g : String),
      result = Json.obj kvs →
      kvs.lookup "status" = some (Json.str "public") →
      kvs.lookup "current_version" = some (Json.obj ckvs) →
      ckvs.lookup "file" = some (Json.obj fkvs) →
      fkvs.lookup "status" = some fstat →
      pyEqStr fstat "public" = false →
      kvs.lookup "guid" = some (Json.str g) →
      process_result result v = Except.error (PyErr.exception
        ("Addon " ++ g ++ " current_version file does not have status \x27public\x27."))) ∧
    (∀ (result : Json) (kvs ckvs fkvs : List (String × Json)),
      result = Json.obj kvs →
      kvs.lookup "status" = some (Json.str "public") →
      kvs.lookup "current_version" = some (Json.obj ckvs) →
      ckvs.lookup "file" = some (Json.obj fkvs) →
      fkvs.lookup "status" = some (Json.str "public") →
      statusCheck result = Except.ok ()) := by
  refine ⟨?_, ?_, ?_⟩
  · intro result v kvs st g hres hst hpe hg
    subst hres
    exact process_error_of_statusCheck (statusCheck_fail_top hst hpe hg)
  · intro result v kvs ckvs fkvs fstat g hres hst hcv hfl hfs hpe hg
    subst hres
    exact process_error_of_statusCheck (statusCheck_fail_file hst hcv hfl hfs hpe hg)
  · intro result kvs ckvs fkvs hres hst hcv hfl hfs
    subst hres
    exact statusCheck_ok_of_public hst hcv hfl hfs

theorem process_result_locale_fallback_witness :
    process_result sampleLocaleOpt false = Except.ok sampleLocaleOptMapped ∧
    "homepage" ∉ mappedMetaKeys sampleLocaleOptMapped ∧
    "description" ∉ mappedMetaKeys sampleLocaleOptMapped ∧
    process_result sampleSlugLocale false =
      Except.error (PyErr.exception "Missing required field: \x27en-US\x27") := by
  refine ⟨rfl, ?_, ?_, ?_⟩
  · exact process_result_locale_fallback.1 sampleLocaleOpt false sampleLocaleOptMapped
      _ _ _ rfl rfl rfl rfl rfl
  · exact process_result_locale_fallback.2.1 sampleLocaleOpt false sampleLocaleOptMapped
      _ _ rfl rfl rfl rfl
  · exact process_result_locale_fallback.2.2 sampleSlugLocale false _ _ rfl rfl rfl rfl

theorem process_result_status_policy_witness :
    process_result sampleBadStatus false = Except.error (PyErr.exception
      "Addon g3 does not have required status \x27public\x27.") ∧
    process_result sampleBadFileStatus false = Except.error (PyErr.exception
      "Addon g4 current_version file does not have status \x27public\x27.") ∧
    statusCheck sampleOk = Except.ok () := by
  refine ⟨?_, ?_, ?_⟩
  · exact process_result_status_policy.1 sampleBadStatus false _ _ "g3" rfl rfl rfl rfl
  · exact process_result_status_policy.2.1 sampleBadFileStatus false _ _ _ _ "g4"
      rfl rfl rfl rfl rfl rfl rfl
  · exact process_result_status_policy.2.2 sampleOk _ _ _ rfl rfl rfl rfl rfl

theorem process_result_optional_omission_witness :
    process_result sampleOk false = Except.ok sampleOkMapped ∧
    Json.member sampleOkMapped "meta" = false := by
  refine ⟨rfl, ?_⟩
  have h := process_result_optional_omission sampleOk false sampleOkMapped _ rfl rfl
  exact h.2.2.2.2.2.2.2.2.2.2.2.2.2 ⟨rfl, rfl,
    (fun cv hcv => by injection hcv with h2; subst h2; rfl),
    (fun cv fl hcv hfl => by
      injection hcv with h2; subst h2; injection hfl with h3; subst h3; rfl),
    (fun cv fl hcv hfl => by
      injection hcv with h2; subst h2; injection hfl with h3; subst h3; rfl),
    (fun cv fl hcv hfl => by
      injection hcv with h2; subst h2; injection hfl with h3; subst h3; rfl),
    rfl, rfl, rfl, rfl, rfl, rfl, rfl⟩

theorem isPrefixOf_append (l r : List Char) : l.isPrefixOf (l ++ r) = true := by
  induction l with
  | nil => simp [List.isPrefixOf]
  | cons a t ih => simp [List.isPrefixOf, ih]

theorem fromhex_error_valueError : ∀ (l : List Char) (e : PyErr),
    fromhex l = Except.error e → e = PyErr.valueError
  | [], e => by simp [fromhex]
  | c :: rest, e => by
    intro h
    unfold fromhex at h
    by_cases hsp : c = ' '
    · rw [if_pos hsp] at h
      exact fromhex_error_valueError rest e h
    · rw [if_neg hsp] at h
      cases rest with
      | nil =>
        cases hv : hexVal c with
        | none => rw [hv] at h; injection h with h; exact h.symm
        | some h1 => rw [hv] at h; injection h with h; exact h.symm
      | cons c2 rest2 =>
        cases hv : hexVal c with
        | none => rw [hv] at h; injection h with h; exact h.symm
        | some h1 =>
          rw [hv] at h
          dsimp only at h
          cases hv2 : hexVal c2 with
          | none => rw [hv2] at h; injection h with h; exact h.symm
          | some h2 =>
            rw [hv2] at h
            cases hfx : fromhex rest2 with
            | ok bs => rw [hfx] at h; simp at h
            | error e2 =>
              rw [hfx] at h
              injection h with h
              rw [h] at hfx
              exact fromhex_error_valueError rest2 e hfx

/-- C1 (amended): the hash normalizer is pure — its result does not depend
on the verbose flag or the addon-id argument — and for every input string it
either returns an output string or raises ValueError (the exception raised
by bytes.fromhex when the selected candidate hex digest has an odd number of
digits); it raises nothing else. -/
theorem convert_to_sri_total_up_to_valueError :
    ∀ (s : String) (v : Bool) (g : Json),
      convert_to_sri s v g = convert_to_sri s false Json.null ∧
      ((∃ t, convert_to_sri s v g = Except.ok t) ∨
        convert_to_sri s v g = Except.error PyErr.valueError) := by
  intro s v g
  refine ⟨rfl, ?_⟩
  have hc : ∀ algo hex, (∃ t, convertHexPart algo hex s = Except.ok t) ∨
      convertHexPart algo hex s = Except.error PyErr.valueError := by
    intro algo hex
    unfold convertHexPart
    by_cases hh : is_hex_string hex = false
    · rw [if_pos hh]
      exact Or.inl ⟨s, rfl⟩
    · rw [if_neg hh]
      cases hfx : fromhex hex.data with
      | ok bs => exact Or.inl ⟨_, rfl⟩
      | error e =>
        right
        rw [fromhex_error_valueError hex.data e hfx]
  unfold convert_to_sri
  by_cases h1 : (pyStartswith s "sha256-" || pyStartswith s "sha512-") = true
  · rw [if_pos h1]
    exact Or.inl ⟨s, rfl⟩
  · rw [if_neg h1]
    by_cases h2 : pyStartswith s "sha256:" = true
    · rw [if_pos h2]
      exact hc "sha256" (pyDrop s 7)
    · rw [if_neg h2]
      by_cases h3 : pyStartswith s "sha512:" = true
      · rw [if_pos h3]
        exact hc "sha512" (pyDrop s 7)
      · rw [if_neg h3]
        by_cases h4 : is_hex_string s = true
        · rw [if_pos h4]
          exact hc "sha256" s
        · rw [if_neg h4]
          exact Or.inl ⟨s, rfl⟩

/-- C1 counterexample: on the all-hex input "abc" (odd digit count) the
normalizer raises ValueError instead of returning an output string, so it is
not total as claimed. -/
theorem convert_to_sri_raises_on_odd_hex :
    convert_to_sri "abc" false Json.null = Except.error PyErr.valueError := rfl

/-- C6: the normalizer maps "sha256:deadbeef" and bare "deadbeef" to
"sha256-3q2+7w==", and returns "not-a-hash!" unchanged. -/
theorem convert_to_sri_examples :
    ∀ (v : Bool) (g : Json),
      convert_to_sri "sha256:deadbeef" v g = Except.ok "sha256-3q2+7w==" ∧
      convert_to_sri "deadbeef" v g = Except.ok "sha256-3q2+7w==" ∧
      convert_to_sri "not-a-hash!" v g = Except.ok "not-a-hash!" :=
  fun v g => ⟨rfl, rfl, rfl⟩

/-- C7: any string starting with "sha256-" or "sha512-" followed by base64
characters is returned unchanged by the normalizer. -/
theorem convert_to_sri_idempotent_on_sri :
    ∀ (t : String) (v : Bool) (g : Json),
      isBase64Str t = true →
      convert_to_sri ("sha256-" ++ t) v g = Except.ok ("sha256-" ++ t) ∧
      convert_to_sri ("sha512-" ++ t) v g = Except.ok ("sha512-" ++ t) := by
  intro t v g hb64
  have h1 : pyStartswith ("sha256-" ++ t) "sha256-" = true := by
    unfold pyStartswith
    rw [String.data_append]
    exact isPrefixOf_append _ _
  have h2 : pyStartswith ("sha512-" ++ t) "sha512-" = true := by
    unfold pyStartswith
    rw [String.data_append]
    exact isPrefixOf_append _ _
  constructor
  · unfold convert_to_sri
    rw [if_pos (by simp [h1])]
  · unfold convert_to_sri
    rw [if_pos (by simp [h2])]

theorem convert_to_sri_idempotent_on_sri_witness :
    isBase64Str "3q2+7w==" = true ∧
    convert_to_sri "sha256-3q2+7w==" false Json.null = Except.ok "sha256-3q2+7w==" ∧
    convert_to_sri "sha512-3q2+7w==" false Json.null = Except.ok "sha512-3q2+7w==" := by
  refine ⟨rfl, ?_, ?_⟩
  · exact (convert_to_sri_idempotent_on_sri "3q2+7w==" false Json.null rfl).1
  · exact (convert_to_sri_idempotent_on_sri "3q2+7w==" false Json.null rfl).2

/-- C10: the empty string is accepted by is_hex_string, so the normalizer
treats it as a bare hex digest and returns "sha256-" rather than passing it
through unchanged. -/
theorem convert_to_sri_empty_string :
    ∀ (v : Bool) (g : Json),
      is_hex_string "" = true ∧
      convert_to_sri "" v g = Except.ok "sha256-" ∧
      "sha256-" ≠ "" :=
  fun v g => ⟨rfl, rfl, by decide⟩

/-- C3 (amended): when at least one page is requested (N ≥ 1) and the API
reports at least one page (T ≥ 1), exactly min(N, T) pages are fetched; with
no pages argument, exactly T pages are fetched. (With N ≤ 0 the script still
fetches page 1, since page 1 is fetched before the bound is computed.) -/
theorem pages_fetched_count :
    ∀ (N T : Int), 1 ≤ N → 1 ≤ T →
      ((pages_fetched (some N) T).length : Int) = min N T ∧
      ((pages_fetched none T).length : Int) = T := by
  have key : ∀ (p : Option Int) (T : Int), 1 ≤ requested_pages p T →
      ((pages_fetched p T).length : Int) = requested_pages p T := by
    intro p T hr
    unfold pages_fetched pool_pages
    have hlen : (pyRange 2 (requested_pages p T + 1)).length =
        (requested_pages p T + 1 - 2).toNat := by
      unfold pyRange
      rw [List.length_map, List.length_range]
    by_cases hgt : requested_pages p T > 1
    · rw [if_pos hgt]
      rw [List.length_cons, hlen]
      omega
    · rw [if_neg hgt]
      simp
      omega
  intro N T hN hT
  constructor
  · have : requested_pages (some N) T = min N T := rfl
    rw [key (some N) T (by rw [this]; exact le_min hN hT), this]
  · have : requested_pages none T = T := rfl
    rw [key none T (by rw [this]; exact hT), this]

theorem pages_fetched_count_witness :
    ((pages_fetched (some 3) 10).length : Int) = min 3 10 ∧
    ((pages_fetched none 10).length : Int) = 10 :=
  pages_fetched_count 3 10 (by decide) (by decide)

/-- C3 counterexample: with a supplied pages argument of 0 and ten available
pages, the script fetches one page (page 1), not min(0, 10) = 0 pages. -/
theorem pages_fetched_zero_request :
    (pages_fetched (some 0) 10).length = 1 ∧
    ((pages_fetched (some 0) 10).length : Int) ≠ min 0 10 := by
  exact ⟨rfl, by decide⟩

theorem lexLe_total : ∀ (a b : List Char), lexLe a b = true ∨ lexLe b a = true
  | [], _ => Or.inl rfl
  | _ :: _, [] => Or.inr rfl
  | x :: xs, y :: ys => by
    by_cases hxy : x < y
    · left
      unfold lexLe
      rw [if_pos hxy]
    · by_cases hyx : y < x
      · right
        unfold lexLe
        rw [if_pos hyx]
      · rcases lexLe_total xs ys with h | h
        · left
          unfold lexLe
          rw [if_neg hxy, if_neg hyx]
          exact h
        · right
          unfold lexLe
          rw [if_neg hyx, if_neg hxy]
          exact h

theorem lexLe_antisymm : ∀ (a b : List Char), lexLe a b = true → lexLe b a = true → a = b
  | [], [] => by intros; rfl
  | [], _ :: _ => by intro _ h2; simp [lexLe] at h2
  | _ :: _, [] => by intro h1 _; simp [lexLe] at h1
  | x :: xs, y :: ys => by
    intro h1 h2
    unfold lexLe at h1 h2
    by_cases hxy : x < y
    · rw [if_neg (asymm hxy), if_pos hxy] at h2
      exact absurd h2 (by simp)
    · by_cases hyx : y < x
      · rw [if_neg hxy, if_pos hyx] at h1
        exact absurd h1 (by simp)
      · have hxyeq : x = y := le_antisymm (le_of_not_lt hyx) (le_of_not_lt hxy)
        subst hxyeq
        rw [if_neg hxy, if_neg hxy] at h1 h2
        rw [lexLe_antisymm xs ys h1 h2]

theorem lexLe_trans : ∀ (a b c : List Char),
    lexLe a b = true → lexLe b c = true → lexLe a c = true
  | [], _, _ => by intros; rfl
  | _ :: _, [], _ => by intro h _; simp [lexLe] at h
  | _ :: _, _ :: _, [] => by intro _ h; simp [lexLe] at h
  | x :: xs, y :: ys, z :: zs => by
    intro h1 h2
    unfold lexLe at h1 h2 ⊢
    by_cases hxy : x < y
    · by_cases hyz : y < z
      · rw [if_pos (lt_trans hxy hyz)]
      · by_cases hzy : z < y
        · rw [if_neg hyz, if_pos hzy] at h2
          exact absurd h2 (by simp)
        · have hyzeq : y = z := le_antisymm (le_of_not_lt hzy) (le_of_not_lt hyz)
          subst hyzeq
          rw [if_pos hxy]
    · by_cases hyx : y < x
      · rw [if_neg hxy, if_pos hyx] at h1
        exact absurd h1 (by simp)
      · have hxyeq : x = y := le_antisymm (le_of_not_lt hyx) (le_of_not_lt hxy)
        subst hxyeq
        rw [if_neg hxy, if_neg hxy] at h1
        by_cases hxz : x < z
        · rw [if_pos hxz]
        · by_cases hzx : z < x
          · rw [if_neg hxz, if_pos hzx] at h2
            exact absurd h2 (by simp)
          · have hxzeq : x = z := le_antisymm (le_of_not_lt hzx) (le_of_not_lt hxz)
            subst hxzeq
            rw [if_neg hxz, if_neg hxz] at h2 ⊢
            exact lexLe_trans xs ys zs h1 h2

theorem pnameLe_total (a b : Json) : pnameLe a b = true ∨ pnameLe b a = true :=
  lexLe_total _ _

theorem pnameLe_trans {a b c : Json} (h1 : pnameLe a b = true) (h2 : pnameLe b c = true) :
    pnameLe a c = true :=
  lexLe_trans _ _ _ h1 h2

theorem pnameKey_eq_of_le_antisymm {a b : Json} (h1 : pnameLe a b = true)
    (h2 : pnameLe b a = true) : pnameKey a = pnameKey b := by
  have := lexLe_antisymm _ _ h1 h2
  cases ha : pnameKey a with
  | mk da =>
    cases hb : pnameKey b with
    | mk db =>
      rw [ha, hb] at this
      simp at this
      rw [this]

theorem mem_insertSorted (r y : Json) : ∀ l, y ∈ insertSorted r l → y = r ∨ y ∈ l
  | [] => by
    intro h
    simp [insertSorted] at h
    exact Or.inl h
  | x :: xs => by
    unfold insertSorted
    by_cases hrx : pnameLe r x = true
    · rw [if_pos hrx]
      intro h
      rcases List.mem_cons.mp h with rfl | h2
      · exact Or.inl rfl
      · exact Or.inr h2
    · rw [if_neg hrx]
      intro h
      rcases List.mem_cons.mp h with rfl | h2
      · exact Or.inr (List.mem_cons_self _ _)
      · rcases mem_insertSorted r y xs h2 with h3 | h3
        · exact Or.inl h3
        · exact Or.inr (List.mem_cons_of_mem _ h3)

theorem insertSorted_perm (r : Json) : ∀ l, (insertSorted r l).Perm (r :: l)
  | [] => List.Perm.refl _
  | x :: xs => by
    unfold insertSorted
    by_cases hrx : pnameLe r x = true
    · rw [if_pos hrx]
    · rw [if_neg hrx]
      exact ((insertSorted_perm r xs).cons x).trans (List.Perm.swap r x xs)

theorem pairwise_insertSorted (r : Json) :
    ∀ l, l.Pairwise (fun a b => pnameLe a b = true) →
      (insertSorted r l).Pairwise (fun a b => pnameLe a b = true)
  | [] => by
    intro _
    simp [insertSorted]
  | x :: xs => by
    intro h
    obtain ⟨hx, hxs⟩ := List.pairwise_cons.mp h
    unfold insertSorted
    by_cases hrx : pnameLe r x = true
    · rw [if_pos hrx]
      refine List.pairwise_cons.mpr ⟨?_, h⟩
      intro y hy
      rcases List.mem_cons.mp hy with rfl | h2
      · exact hrx
      · exact pnameLe_trans hrx (hx y h2)
    · rw [if_neg hrx]
      refine List.pairwise_cons.mpr ⟨?_, pairwise_insertSorted r xs hxs⟩
      intro y hy
      rcases mem_insertSorted r y xs hy with h2 | h2
      · rw [h2]
        rcases pnameLe_total r x with h3 | h3
        · exact absurd h3 hrx
        · exact h3
      · exact hx y h2

theorem sortResults_perm : ∀ l, (sortResults l).Perm l
  | [] => List.Perm.refl _
  | x :: xs =>
    (insertSorted_perm x (sortResults xs)).trans ((sortResults_perm xs).cons x)

theorem sortResults_pairwise :
    ∀ l, (sortResults l).Pairwise (fun a b => pnameLe a b = true)
  | [] => List.Pairwise.nil
  | x :: xs => pairwise_insertSorted x (sortResults xs) (sortResults_pairwise xs)

theorem sorted_nodup_eq : ∀ (u v : List Json), u.Perm v →
    u.Pairwise (fun a b => pnameLe a b = true) →
    v.Pairwise (fun a b => pnameLe a b = true) →
    (u.map pnameKey).Nodup → u = v
  | [], v => fun hp _ _ _ => hp.symm.eq_nil.symm
  | x :: xs, v => fun hp hu hv hn => by
    cases v with
    | nil => exact absurd hp.eq_nil (by simp)
    | cons y ys =>
      by_cases hxy : x = y
      · subst hxy
        have htail : xs.Perm ys := hp.cons_inv
        obtain ⟨_, hu2⟩ := List.pairwise_cons.mp hu
        obtain ⟨_, hv2⟩ := List.pairwise_cons.mp hv
        have hn2 : (xs.map pnameKey).Nodup := by
          simp only [List.map_cons, List.nodup_cons] at hn
          exact hn.2
        rw [sorted_nodup_eq xs ys htail hu2 hv2 hn2]
      · exfalso
        have hxv : x ∈ y :: ys := hp.mem_iff.mp (List.mem_cons_self x xs)
        have hxys : x ∈ ys := by
          rcases List.mem_cons.mp hxv with h | h
          · exact absurd h hxy
          · exact h
        have hyu : y ∈ x :: xs := hp.symm.mem_iff.mp (List.mem_cons_self y ys)
        have hyxs : y ∈ xs := by
          rcases List.mem_cons.mp hyu with h | h
          · exact absurd h.symm hxy
          · exact h
        have h1 : pnameLe x y = true := (List.pairwise_cons.mp hu).1 y hyxs
        have h2 : pnameLe y x = true := (List.pairwise_cons.mp hv).1 x hxys
        have hk : pnameKey x = pnameKey y := pnameKey_eq_of_le_antisymm h1 h2
        have hmem : pnameKey x ∈ xs.map pnameKey := by
          rw [hk]
          exact List.mem_map_of_mem _ hyxs
        simp only [List.map_cons, List.nodup_cons] at hn
        exact hn.1 hmem

theorem sortResults_eq_of_perm {l1 l2 : List Json} (h : l1.Perm l2)
    (hnd : (l1.map pnameKey).Nodup) : sortResults l1 = sortResults l2 :=
  sorted_nodup_eq _ _
    ((sortResults_perm l1).trans (h.trans (sortResults_perm l2).symm))
    (sortResults_pairwise l1) (sortResults_pairwise l2)
    (((sortResults_perm l1).map pnameKey).nodup_iff.mpr hnd)

theorem perm_flatten_of_perm {l1 l2 : List (List Json)} (h : l1.Perm l2) :
    l1.flatten.Perm l2.flatten := by
  induction h with
  | nil => exact List.Perm.refl _
  | cons x _ ih => simpa using ih.append_left x
  | swap x y l =>
    simp only [List.flatten_cons]
    rw [← List.append_assoc, ← List.append_assoc]
    exact (List.perm_append_comm).append_right _
  | trans _ _ ih1 ih2 => exact ih1.trans ih2

/-- C5 (amended): for a fixed set of page responses whose mapped records
have pairwise-distinct pnames, any two completion orders of pages 2..N
produce the identical serialized array; with duplicate pnames the stable
sort preserves encounter order among equal keys, so completion order can
change the output. -/
theorem run_output_order_independent :
    ∀ (page1 : List Json) (rest1 rest2 : List (List Json)),
      rest1.Perm rest2 →
      ((page1 ++ rest1.flatten).map pnameKey).Nodup →
      run_output page1 rest1 = run_output page1 rest2 := by
  intro p r1 r2 hperm hnd
  unfold run_output
  exact sortResults_eq_of_perm ((perm_flatten_of_perm hperm).append_left p) hnd

theorem run_output_order_independent_witness :
    run_output [] [[sampleRecA], [sampleRecB]] = run_output [] [[sampleRecB], [sampleRecA]] :=
  run_output_order_independent [] [[sampleRecA], [sampleRecB]] [[sampleRecB], [sampleRecA]]
    (List.Perm.swap _ _ _) (by decide)

/-- C5 counterexample: two pages carrying records with the same pname but
different versions serialize in completion order, because the sort is
stable; the two completion orders give different arrays. -/
theorem run_output_depends_on_order_with_dup_pnames :
    run_output [] [[sampleDupA], [sampleDupB]] ≠ run_output [] [[sampleDupB], [sampleDupA]] := by
  intro h
  rw [show run_output [] [[sampleDupA], [sampleDupB]] = [sampleDupA, sampleDupB] from rfl,
      show run_output [] [[sampleDupB], [sampleDupA]] = [sampleDupB, sampleDupA] from rfl] at h
  have h1 : sampleDupA = sampleDupB := ((List.cons.injEq _ _ _ _).mp h).1
  have h0 := congrArg (fun j => Json.getOrNone j "version") h1
  simp only [] at h0
  rw [show Json.getOrNone sampleDupA "version" = Json.str "1" from rfl,
      show Json.getOrNone sampleDupB "version" = Json.str "2" from rfl] at h0
  injection h0 with h3
  exact absurd h3 (by decide)

/-- C9: for mapped records with pairwise-distinct pnames collected from
pages in any completion order, the final array is the same multiset sorted
strictly ascending by pname (lexicographic by code point). -/
theorem run_output_sorted_by_pname :
    ∀ (page1 : List Json) (rest : List (List Json)),
      ((page1 ++ rest.flatten).map pnameKey).Nodup →
      (run_output page1 rest).Pairwise
        (fun a b => pnameLe a b = true ∧ pnameKey a ≠ pnameKey b) ∧
      (run_output page1 rest).Perm (page1 ++ rest.flatten) := by
  intro p rest hnd
  have hperm : (run_output p rest).Perm (p ++ rest.flatten) := sortResults_perm _
  refine ⟨?_, hperm⟩
  have hpw : (run_output p rest).Pairwise (fun a b => pnameLe a b = true) :=
    sortResults_pairwise _
  have hnd2 : ((run_output p rest).map pnameKey).Nodup :=
    ((hperm.map pnameKey).nodup_iff).mpr hnd
  have hpw2 : (run_output p rest).Pairwise (fun a b => pnameKey a ≠ pnameKey b) :=
    (List.pairwise_map).mp hnd2
  exact hpw.and hpw2

theorem run_output_sorted_by_pname_witness :
    (run_output [] [[sampleRecB], [sampleRecA]]).Pairwise
      (fun a b => pnameLe a b = true ∧ pnameKey a ≠ pnameKey b) ∧
    (run_output [] [[sampleRecB], [sampleRecA]]).Perm ([] ++ [[sampleRecB], [sampleRecA]].flatten) :=
  run_output_sorted_by_pname [] [[sampleRecB], [sampleRecA]] (by decide)

/-- C2 counterexample: a public record whose per-locale `slug` mapping lacks
an `en-US` entry makes process_result raise a missing-required-field error,
contradicting the claim that every per-locale mapping lacking `en-US` yields
an absent value rather than raising. -/
theorem process_result_slug_locale_raises :
    process_result sampleSlugLocale false =
      Except.error (PyErr.exception "Missing required field: \x27en-US\x27") := rfl
